import Mathlib

/-!
Verification development for the mutation-stream control plane:
the projector-side topic Feed (`secondary/projector/feed.go`), the
consumer-side StreamManager (`manager` package) and the scan-side
cancel callback (`secondary/indexer/scan_coordinator.go`).

The Go code is shallowly embedded: the per-topic maps are modelled as
functions `String → Option α`, the back-channel as a FIFO list whose
elements are Go slices (`[]interface{}`) of tagged values, and every
external collaborator (couchbase bucket, BucketFeeder RPCs, endpoint
factory) as an oracle record `Env` supplied to each operation.
-/

namespace Indexing

/-- Status stamped by the producer on a per-vbucket stream-request
response (`mcd.Status`).  Only `rollback` is distinguished by the feed. -/
inductive McdStatus where
  | success
  | rollback
  | other
deriving DecidableEq, Repr

/-- Error surface of the feed (`feed.go` error variables), with an extra
constructor for errors produced by external collaborators. -/
inductive FeedError where
  | invalidBucket
  | invalidVbucketBranch
  | inconsistentFeed
  | responseTimeout
  | envError (n : Nat)
deriving DecidableEq, Repr

/-- One row of the parallel arrays of a `protobuf.TsVbuuid`:
`(vbno, seqno, vbuuid, snapshotStart, snapshotEnd)`. -/
structure VbEntry where
  vbno : Nat
  seqno : Nat
  vbuuid : Nat
  snapStart : Nat
  snapEnd : Nat
deriving DecidableEq, Repr

/-- `protobuf.TsVbuuid`: a per-bucket timestamp made of a pool name, a
bucket name and parallel arrays, here held as a list of entries. -/
structure TsVbuuid where
  pool : String
  bucket : String
  entries : List VbEntry
deriving DecidableEq, Repr

def TsVbuuid.GetPool (t : TsVbuuid) : String := t.pool

def TsVbuuid.GetBucket (t : TsVbuuid) : String := t.bucket

def TsVbuuid.GetVbnos (t : TsVbuuid) : List Nat := t.entries.map (fun e => e.vbno)

/-- Modelled from the spec: `Append(vb,seq,uuid,s,e)` on a
VbuuidTimestamp appends one row to the parallel arrays (the protobuf
implementation is not part of this repository's sources). -/
def TsVbuuid.Append (t : TsVbuuid) (vb seq uuid s e : Nat) : TsVbuuid :=
  { t with entries := t.entries ++ [⟨vb, seq, uuid, s, e⟩] }

/-- Modelled from the spec: `protobuf.NewTsVbuuid(pool, bucket, max)`
creates an empty timestamp for the given pool and bucket. -/
def newTsVbuuid (pool bucket : String) : TsVbuuid := ⟨pool, bucket, []⟩

/-- Modelled from the spec: `SelectByVbuckets` keeps exactly the entries
whose vbucket is listed. -/
def TsVbuuid.SelectByVbuckets (t : TsVbuuid) (vbnos : List Nat) : TsVbuuid :=
  { t with entries := t.entries.filter (fun e => vbnos.contains e.vbno) }

/-- Modelled from the spec: `FilterByVbuckets` drops the entries whose
vbucket is listed. -/
def TsVbuuid.FilterByVbuckets (t : TsVbuuid) (vbnos : List Nat) : TsVbuuid :=
  { t with entries := t.entries.filter (fun e => !(vbnos.contains e.vbno)) }

/-- Modelled from the spec: `Union` merges another timestamp into this
one, the argument's entries superseding entries for the same vbucket. -/
def TsVbuuid.Union (t u : TsVbuuid) : TsVbuuid :=
  { t with entries :=
      t.entries.filter (fun e => !((u.GetVbnos).contains e.vbno)) ++ u.entries }

/-- Modelled from the spec: `VerifyBranch(vbnos, vbuuids)` checks that
for every producer-reported vbucket present in the timestamp, the
timestamp's vbuuid agrees with the producer's failover log. -/
def TsVbuuid.VerifyBranch (t : TsVbuuid) (vbnos vbuuids : List Nat) : Bool :=
  (vbnos.zip vbuuids).all (fun p =>
    t.entries.all (fun e => !(e.vbno == p.1) || (e.vbuuid == p.2)))

/-- `controlStreamRequest`: feedback posted by the data path when the
producer answers a `StartVbStreams` for one vbucket. -/
structure CtrlStreamRequest where
  bucket : String
  kvaddr : String
  opq : Nat
  status : McdStatus
  vbno : Nat
  vbuuid : Nat
  seqno : Nat
deriving DecidableEq, Repr

/-- `controlStreamEnd`: feedback posted by the data path when the
producer ends the stream of one vbucket. -/
structure CtrlStreamEnd where
  bucket : String
  kvaddr : String
  opq : Nat
  status : McdStatus
  vbno : Nat
deriving DecidableEq, Repr

/-- A Go `interface{}` value travelling on the back-channel: either one
of the two control messages, or — crucially — a whole `[]interface{}`
slice (this is what `waitOnFeedback` re-queues). -/
inductive BVal where
  | ctrlReq (m : CtrlStreamRequest)
  | ctrlEnd (m : CtrlStreamEnd)
  | slice (xs : List BVal)

/-- The back-channel carries Go slices `[]interface{}`; each channel
element is a list of `BVal`. -/
abbrev BackMsg := List BVal

/-- `PostStreamRequest`: the data path posts `[]interface{}{cmd}` with a
`*controlStreamRequest` payload onto the back-channel. -/
def postStreamRequest (bucket kvaddr : String) (opq : Nat) (status : McdStatus)
    (vbno vbuuid seqno : Nat) : BackMsg :=
  [BVal.ctrlReq ⟨bucket, kvaddr, opq, status, vbno, vbuuid, seqno⟩]

/-- `PostStreamEnd`: the data path posts `[]interface{}{cmd}` with a
`*controlStreamEnd` payload onto the back-channel. -/
def postStreamEnd (bucket kvaddr : String) (opq : Nat) (status : McdStatus)
    (vbno : Nat) : BackMsg :=
  [BVal.ctrlEnd ⟨bucket, kvaddr, opq, status, vbno⟩]

/-- Result of the feedback callback in `waitOnFeedback`: the strings
"ok", "done" and "skip" returned by the Go closure. -/
inductive CbRes where
  | ok
  | done
  | skip
deriving DecidableEq, Repr

/-- The select-loop of `waitOnFeedback`: reads messages from the
back-channel in order, applies the callback to `msg[0]`, buffers the
"skip"ped messages, stops on "done".  Exhausting the queue models the
timeout firing.  Returns (callback state, done?, unread rest, skipped
messages in FIFO order). -/
def drainLoop {σ : Type} (cb : σ → BVal → σ × CbRes) :
    σ → List BackMsg → List BackMsg → σ × Bool × List BackMsg × List BackMsg
  | st, [], skipped => (st, false, [], skipped)
  | st, msg :: rest, skipped =>
    match cb st (msg.headD (BVal.slice [])) with
    | (st', CbRes.skip) => drainLoop cb st' rest (skipped ++ [msg])
    | (st', CbRes.done) => (st', true, rest, skipped)
    | (st', CbRes.ok) => drainLoop cb st' rest skipped

/-- `waitOnFeedback`: drain the back-channel through the callback until
"done" or timeout; afterwards every skipped message `msg` is re-posted
as `[]interface{}{msg}` — i.e. wrapped in a fresh one-element slice —
behind the unread messages. -/
def waitOnFeedback {σ : Type} (cb : σ → BVal → σ × CbRes) (st : σ)
    (backch : List BackMsg) : σ × Option FeedError × List BackMsg :=
  match drainLoop cb st backch [] with
  | (st', done, rest, skipped) =>
    (st', if done then none else some FeedError.responseTimeout,
      rest ++ skipped.map (fun m => [BVal.slice m]))

/-- `c.RemoveUint16`: remove a vbucket number from a list.
Modelled from the spec (the `common` helper is not among the sources):
every occurrence of the value is removed. -/
def removeUint16 (v : Nat) (xs : List Nat) : List Nat :=
  xs.filter (fun x => !(x == v))

/-- Callback state of `waitStreamRequests`: the rollback timestamp being
accumulated and the vbuckets still awaited. -/
structure WsrState where
  rollTs : TsVbuuid
  vbnos : List Nat
deriving Repr

/-- The closure passed by `waitStreamRequests` to `waitOnFeedback`:
consume matching `controlStreamRequest`s, appending `ROLLBACK` reports
to the rollback timestamp; skip everything else. -/
def wsrCallb (opq : Nat) (bucketn : String) (st : WsrState) (v : BVal) :
    WsrState × CbRes :=
  match v with
  | BVal.ctrlReq val =>
    if val.bucket == bucketn && val.opq == opq then
      let rollTs := if val.status == McdStatus.rollback
        then st.rollTs.Append val.vbno val.seqno val.vbuuid 0 0
        else st.rollTs
      let vbnos := removeUint16 val.vbno st.vbnos
      (⟨rollTs, vbnos⟩, if vbnos.isEmpty then CbRes.done else CbRes.ok)
    else (st, CbRes.skip)
  | _ => (st, CbRes.skip)

/-- `waitStreamRequests`: wait until every awaited vbucket has produced a
matching `StreamRequest` feedback; returns the rollback timestamp, the
error (timeout) if any, and the back-channel after the wait. -/
def waitStreamRequests (opq : Nat) (pooln bucketn : String) (vbnos : List Nat)
    (backch : List BackMsg) : (TsVbuuid × Option FeedError) × List BackMsg :=
  let rollTs := newTsVbuuid pooln bucketn
  if vbnos.isEmpty then ((rollTs, none), backch)
  else
    match waitOnFeedback (wsrCallb opq bucketn) ⟨rollTs, vbnos⟩ backch with
    | (st, err, backch') => ((st.rollTs, err), backch')

/-- The closure passed by `waitStreamEnds` to `waitOnFeedback`: consume
matching `controlStreamEnd`s; skip everything else. -/
def wseCallb (opq : Nat) (bucketn : String) (vbnos : List Nat) (v : BVal) :
    List Nat × CbRes :=
  match v with
  | BVal.ctrlEnd val =>
    if val.bucket == bucketn && val.opq == opq then
      let vbnos' := removeUint16 val.vbno vbnos
      (vbnos', if vbnos'.isEmpty then CbRes.done else CbRes.ok)
    else (vbnos, CbRes.skip)
  | _ => (vbnos, CbRes.skip)

/-- `waitStreamEnds`: wait until every awaited vbucket has produced a
matching `StreamEnd` feedback. -/
def waitStreamEnds (opq : Nat) (bucketn : String) (vbnos : List Nat)
    (backch : List BackMsg) : Option FeedError × List BackMsg :=
  if vbnos.isEmpty then (none, backch)
  else
    match waitOnFeedback (wseCallb opq bucketn) vbnos backch with
    | (_, err, backch') => (err, backch')

/-- An evaluator attached to an index instance; only its bucket is
observed by the feed (`evaluator.Bucket()`). -/
structure Evaluator where
  bucket : String
deriving DecidableEq, Repr

/-- A router attached to an index instance; only its endpoint addresses
are observed by the feed (`router.Endpoints()`). -/
structure Router where
  eps : List String
deriving DecidableEq, Repr

/-- `Engine(uuid, evaluator, router)`. -/
structure Engine where
  uuid : Nat
  evaluator : Evaluator
  router : Router
deriving DecidableEq, Repr

/-- A downstream `RouterEndpoint` handle; `pingOk` is what `Ping()`
answers. -/
structure Endpoint where
  id : Nat
  pingOk : Bool
deriving DecidableEq, Repr

/-- An upstream `BucketFeeder` handle. -/
structure Feeder where
  id : Nat
deriving DecidableEq, Repr

/-- What a `Subscriber` request yields: `GetEvaluators()` and
`GetRouters()`, each keyed by instance uuid, either of which may fail. -/
structure SubscriberData where
  evaluators : Except FeedError (List (Nat × Evaluator))
  routers : Except FeedError (List (Nat × Router))

/-- `protobuf.MutationTopicRequest` (the fields the feed reads). -/
structure MutationTopicRequest where
  reqTimestamps : List TsVbuuid
  sub : SubscriberData

/-- `protobuf.RestartVbucketsRequest`. -/
structure RestartVbucketsRequest where
  restartTimestamps : List TsVbuuid

/-- `protobuf.ShutdownVbucketsRequest`. -/
structure ShutdownVbucketsRequest where
  shutdownTimestamps : List TsVbuuid

/-- `protobuf.AddBucketsRequest` (the fields the feed reads). -/
structure AddBucketsRequest where
  reqTimestamps : List TsVbuuid
  sub : SubscriberData

/-- `protobuf.DelBucketsRequest`. -/
structure DelBucketsRequest where
  buckets : List String

/-- `protobuf.AddInstancesRequest` (the fields the feed reads). -/
structure AddInstancesRequest where
  sub : SubscriberData

/-- `protobuf.DelInstancesRequest`. -/
structure DelInstancesRequest where
  instanceIds : List Nat

/-- `protobuf.RepairEndpointsRequest`. -/
structure RepairEndpointsRequest where
  eps : List String

/-- Map assignment `m[k] = v` on a bucket-keyed Go map. -/
def mapSet {α : Type} (m : String → Option α) (k : String) (v : α) :
    String → Option α :=
  fun b => if b = k then some v else m b

/-- Map deletion `delete(m, k)` on a bucket-keyed Go map. -/
def mapDel {α : Type} (m : String → Option α) (k : String) :
    String → Option α :=
  fun b => if b = k then none else m b

/-- Assignment `m[k] = v` on a uuid-keyed Go map held as an association
list: replace the existing entry or append a fresh one. -/
def assocInsert {β : Type} (m : List (Nat × β)) (k : Nat) (v : β) :
    List (Nat × β) :=
  if (m.lookup k).isSome then
    m.map (fun p => if p.1 == k then (k, v) else p)
  else m ++ [(k, v)]

/-- The mutable per-topic state owned by the `Feed` actor, together with
its back-channel contents. -/
structure FeedState where
  reqTss : String → Option TsVbuuid
  rollTss : String → Option TsVbuuid
  feeders : String → Option Feeder
  kvdata : String → Option (List String)
  engines : String → Option (List (Nat × Engine))
  endpoints : String → Option Endpoint
  backch : List BackMsg

/-- The freshly created feed: every map empty, back-channel empty. -/
def initFeedState : FeedState :=
  ⟨fun _ => none, fun _ => none, fun _ => none, fun _ => none,
   fun _ => none, fun _ => none, []⟩

/-- External calls the embedding records; used to observe which pool
name the feed hands to its collaborators. -/
inductive ExtCall where
  | bucketDetailsCall (pool bucket : String)
deriving DecidableEq, Repr

/-- Oracles for the feed's external collaborators: the couchbase bucket
(vbmap and failover logs), `OpenBucketFeed`, the feeder RPCs, and the
endpoint factory.  `kvaddrs` is the feed's immutable kv-node list. -/
structure Env where
  kvaddrs : List String
  bucketDetails : String → String → Except FeedError (List Nat × List Nat)
  openBucketFeed : String → Except FeedError Feeder
  startVbStreams : String → Option FeedError
  endVbStreams : String → Option FeedError
  epFactory : String → Except FeedError (Option Endpoint)

/-- `feed.subscribers`: obtain evaluators and routers from the request
and check that they agree in cardinality and key set. -/
def subscribers (sub : SubscriberData) :
    Except FeedError (List (Nat × Evaluator) × List (Nat × Router)) :=
  match sub.evaluators with
  | Except.error e => Except.error e
  | Except.ok evals =>
    match sub.routers with
    | Except.error e => Except.error e
    | Except.ok routers =>
      if evals.length ≠ routers.length then Except.error FeedError.inconsistentFeed
      else if evals.all (fun p => (routers.lookup p.1).isSome) then
        Except.ok (evals, routers)
      else Except.error FeedError.inconsistentFeed

/-- The per-address body shared by `feed.startEndpoints` and
`feed.repairEndpoints`: if the endpoint is absent or fails `Ping()`,
(re)create it through the factory and install the result. -/
def startEndpointsLoop (env : Env) :
    (String → Option Endpoint) → List String →
      Option FeedError × (String → Option Endpoint)
  | eps, [] => (none, eps)
  | eps, raddr :: rest =>
    let need := match eps raddr with
      | some ep => !ep.pingOk
      | none => true
    if need then
      match env.epFactory raddr with
      | Except.error e => (some e, eps)
      | Except.ok (some ep) => startEndpointsLoop env (mapSet eps raddr ep) rest
      | Except.ok none => startEndpointsLoop env eps rest
    else startEndpointsLoop env eps rest

/-- Engine installation of `feed.processSubscribers`: for every
`(uuid, evaluator)` put `Engine(uuid, evaluator, routers[uuid])` under
the evaluator's bucket. -/
def installEngines (routers : List (Nat × Router)) :
    List (Nat × Evaluator) → (String → Option (List (Nat × Engine))) →
      String → Option (List (Nat × Engine))
  | [], eng => eng
  | (uuid, ev) :: rest, eng =>
    let bucketn := ev.bucket
    let m := (eng bucketn).getD []
    let engine : Engine := ⟨uuid, ev, (routers.lookup uuid).getD ⟨[]⟩⟩
    installEngines routers rest (mapSet eng bucketn (assocInsert m uuid engine))

/-- `feed.processSubscribers`: validate the subscriber, start the
endpoints named by its routers, then install its engines. -/
def processSubscribers (env : Env) (s : FeedState) (sub : SubscriberData) :
    Option FeedError × FeedState :=
  match subscribers sub with
  | Except.error e => (some e, s)
  | Except.ok (evals, routers) =>
    match startEndpointsLoop env s.endpoints
        ((routers.map (fun p => p.2.eps)).flatten) with
    | (some e, eps) => (some e, { s with endpoints := eps })
    | (none, eps) =>
      (none, { s with endpoints := eps,
                      engines := installEngines routers evals s.engines })

/-- `feed.bucketFeed`: resolve vbmap and failover logs for the
timestamp's pool and bucket, verify the branch when starting, find or
open the bucket's feeder, then issue `EndVbStreams` and/or
`StartVbStreams`.  Returns the feeder (or the error) and the trace of
`bucketDetails` calls. -/
def bucketFeed (env : Env) (s : FeedState) (stop strt : Bool)
    (reqTs : TsVbuuid) : Except FeedError Feeder × List ExtCall :=
  let pooln := reqTs.GetPool
  let bucketn := reqTs.GetBucket
  let tr := [ExtCall.bucketDetailsCall pooln bucketn]
  match env.bucketDetails pooln bucketn with
  | Except.error e => (Except.error e, tr)
  | Except.ok (vbnos, vbuuids) =>
    if strt && !(reqTs.VerifyBranch vbnos vbuuids) then
      (Except.error FeedError.invalidVbucketBranch, tr)
    else
      match (match s.feeders bucketn with
             | some f => Except.ok f
             | none => env.openBucketFeed bucketn : Except FeedError Feeder) with
      | Except.error e => (Except.error e, tr)
      | Except.ok feeder =>
        match (if stop then env.endVbStreams bucketn else none) with
        | some e => (Except.error e, tr)
        | none =>
          match (if strt then env.startVbStreams bucketn else none) with
          | some e => (Except.error e, tr)
          | none => (Except.ok feeder, tr)

/-- `feed.startDataPath`: spawn one KV-Data Path per kv-node; only the
key set (the kv addresses) is observed by the claims. -/
def startDataPath (env : Env) : List String := env.kvaddrs

/-- The per-timestamp body of `feed.start`: note that *both* `pooln` and
`bucketn` are bound to `reqTs.GetBucket()`. -/
def startLoop (env : Env) (opq : Nat) :
    FeedState → List TsVbuuid → Option FeedError × FeedState × List ExtCall
  | s, [] => (none, s, [])
  | s, reqTs :: rest =>
    let pooln := reqTs.GetBucket
    let bucketn := reqTs.GetBucket
    match bucketFeed env s false true reqTs with
    | (Except.error e, tr) => (some e, s, tr)
    | (Except.ok feeder, tr) =>
      let m := startDataPath env
      let vbnos := reqTs.GetVbnos
      match waitStreamRequests opq pooln bucketn vbnos s.backch with
      | ((rollTs, werr), backch') =>
        let s' := { s with backch := backch' }
        match werr with
        | some e => (some e, s', tr)
        | none =>
          let s'' := { s' with
            reqTss := mapSet s'.reqTss bucketn reqTs,
            rollTss := mapSet s'.rollTss bucketn rollTs,
            feeders := mapSet s'.feeders bucketn feeder,
            kvdata := mapSet s'.kvdata bucketn m }
          match startLoop env opq s'' rest with
          | (err, sf, tr') => (err, sf, tr ++ tr')

/-- `feed.start` (the `MutationTopic` handler): process subscribers,
then start upstream streams bucket by bucket. -/
def start (env : Env) (s : FeedState) (req : MutationTopicRequest)
    (opq : Nat) : Option FeedError × FeedState × List ExtCall :=
  match processSubscribers env s req.sub with
  | (some e, s') => (some e, s', [])
  | (none, s') => startLoop env opq s' req.reqTimestamps

/-- The per-timestamp body of `feed.restartVbuckets`: end the streams,
wait, update the data paths, restart the streams, wait, then union the
restart timestamp into `reqTss` and replace `rollTss`. -/
def restartLoop (env : Env) (opq : Nat) :
    FeedState → List TsVbuuid → Option FeedError × FeedState × List ExtCall
  | s, [] => (none, s, [])
  | s, restartTs :: rest =>
    let pooln := restartTs.GetPool
    let bucketn := restartTs.GetBucket
    match s.reqTss bucketn, s.kvdata bucketn with
    | some reqTs, some _kv =>
      match bucketFeed env s true false restartTs with
      | (Except.error e, tr) => (some e, s, tr)
      | (Except.ok _feeder, tr) =>
        let vbnos := restartTs.GetVbnos
        match waitStreamEnds opq bucketn vbnos s.backch with
        | (some e, backch₁) => (some e, { s with backch := backch₁ }, tr)
        | (none, backch₁) =>
          -- the KV-Data Paths get `UpdateTs(restartTs)`: external only
          let s₁ := { s with backch := backch₁ }
          match bucketFeed env s₁ false true restartTs with
          | (Except.error e, tr₂) => (some e, s₁, tr ++ tr₂)
          | (Except.ok _feeder₂, tr₂) =>
            match waitStreamRequests opq pooln bucketn vbnos s₁.backch with
            | ((rollTs, werr), backch₂) =>
              let s₂ := { s₁ with backch := backch₂ }
              match werr with
              | some e => (some e, s₂, tr ++ tr₂)
              | none =>
                let s₃ := { s₂ with
                  reqTss := mapSet s₂.reqTss bucketn (reqTs.Union restartTs),
                  rollTss := mapSet s₂.rollTss bucketn rollTs }
                match restartLoop env opq s₃ rest with
                | (err, sf, tr₃) => (err, sf, tr ++ tr₂ ++ tr₃)
    | _, _ => (some FeedError.invalidBucket, s, [])

/-- `feed.restartVbuckets`. -/
def restartVbuckets (env : Env) (s : FeedState) (req : RestartVbucketsRequest)
    (opq : Nat) : Option FeedError × FeedState × List ExtCall :=
  restartLoop env opq s req.restartTimestamps

/-- The per-timestamp body of `feed.shutdownVbuckets`: end the streams,
wait, then drop the shut vbuckets from `reqTss`. -/
def shutdownLoop (env : Env) (opq : Nat) :
    FeedState → List TsVbuuid → Option FeedError × FeedState × List ExtCall
  | s, [] => (none, s, [])
  | s, shutTs :: rest =>
    let bucketn := shutTs.GetBucket
    match s.reqTss bucketn with
    | none => (some FeedError.invalidBucket, s, [])
    | some reqTs =>
      match bucketFeed env s true false shutTs with
      | (Except.error e, tr) => (some e, s, tr)
      | (Except.ok _feeder, tr) =>
        let vbnos := shutTs.GetVbnos
        match waitStreamEnds opq bucketn vbnos s.backch with
        | (some e, backch') => (some e, { s with backch := backch' }, tr)
        | (none, backch') =>
          let s' := { s with
            backch := backch',
            reqTss := mapSet s.reqTss bucketn (reqTs.FilterByVbuckets vbnos) }
          match shutdownLoop env opq s' rest with
          | (err, sf, tr') => (err, sf, tr ++ tr')

/-- `feed.shutdownVbuckets`. -/
def shutdownVbuckets (env : Env) (s : FeedState)
    (req : ShutdownVbucketsRequest) (opq : Nat) :
    Option FeedError × FeedState × List ExtCall :=
  shutdownLoop env opq s req.shutdownTimestamps

/-- The per-timestamp body of `feed.addBuckets`: identical to the start
loop except that `pooln` is bound to `reqTs.GetPool()`. -/
def addBucketsLoop (env : Env) (opq : Nat) :
    FeedState → List TsVbuuid → Option FeedError × FeedState × List ExtCall
  | s, [] => (none, s, [])
  | s, reqTs :: rest =>
    let pooln := reqTs.GetPool
    let bucketn := reqTs.GetBucket
    match bucketFeed env s false true reqTs with
    | (Except.error e, tr) => (some e, s, tr)
    | (Except.ok feeder, tr) =>
      let m := startDataPath env
      let vbnos := reqTs.GetVbnos
      match waitStreamRequests opq pooln bucketn vbnos s.backch with
      | ((rollTs, werr), backch') =>
        let s' := { s with backch := backch' }
        match werr with
        | some e => (some e, s', tr)
        | none =>
          let s'' := { s' with
            reqTss := mapSet s'.reqTss bucketn reqTs,
            rollTss := mapSet s'.rollTss bucketn rollTs,
            feeders := mapSet s'.feeders bucketn feeder,
            kvdata := mapSet s'.kvdata bucketn m }
          match addBucketsLoop env opq s'' rest with
          | (err, sf, tr') => (err, sf, tr ++ tr')

/-- `feed.addBuckets`: process subscribers, then start upstream streams
bucket by bucket. -/
def addBuckets (env : Env) (s : FeedState) (req : AddBucketsRequest)
    (opq : Nat) : Option FeedError × FeedState × List ExtCall :=
  match processSubscribers env s req.sub with
  | (some e, s') => (some e, s', [])
  | (none, s') => addBucketsLoop env opq s' req.reqTimestamps

/-- The per-bucket body of `feed.delBuckets`: end the bucket's entire
stream set, wait, close its data paths, then erase the bucket from all
five per-bucket maps.  When the bucket has no entry in `reqTss`, the Go
code passes the nil `*TsVbuuid`, whose getters yield zero values. -/
def delBucketsLoop (env : Env) (opq : Nat) :
    FeedState → List String → Option FeedError × FeedState × List ExtCall
  | s, [] => (none, s, [])
  | s, bucketn :: rest =>
    match s.kvdata bucketn with
    | none => (some FeedError.invalidBucket, s, [])
    | some _ =>
      let reqTs := (s.reqTss bucketn).getD (newTsVbuuid "" "")
      match bucketFeed env s true false reqTs with
      | (Except.error e, tr) => (some e, s, tr)
      | (Except.ok _feeder, tr) =>
        let vbnos := reqTs.GetVbnos
        match waitStreamEnds opq bucketn vbnos s.backch with
        | (some e, backch') => (some e, { s with backch := backch' }, tr)
        | (none, backch') =>
          -- every KV-Data Path of the bucket gets `Close()`: external only
          let s' : FeedState := { s with
            backch := backch',
            reqTss := mapDel s.reqTss bucketn,
            rollTss := mapDel s.rollTss bucketn,
            feeders := mapDel s.feeders bucketn,
            kvdata := mapDel s.kvdata bucketn,
            engines := mapDel s.engines bucketn }
          match delBucketsLoop env opq s' rest with
          | (err, sf, tr') => (err, sf, tr ++ tr')

/-- `feed.delBuckets`. -/
def delBuckets (env : Env) (s : FeedState) (req : DelBucketsRequest)
    (opq : Nat) : Option FeedError × FeedState × List ExtCall :=
  delBucketsLoop env opq s req.buckets

/-- `feed.addInstances`: process subscribers; the subsequent
`AddEngines` pushes into the KV-Data Paths are external calls. -/
def addInstances (env : Env) (s : FeedState) (req : AddInstancesRequest) :
    Option FeedError × FeedState :=
  processSubscribers env s req.sub

/-- `feed.delInstances`: for every bucket keep only the engines whose
uuid is not listed; the `DeleteEngines` pushes are external calls.  Note
that every bucket keeps its (possibly now empty) engine map. -/
def delInstances (s : FeedState) (req : DelInstancesRequest) :
    Option FeedError × FeedState :=
  (none, { s with engines := fun b =>
    (s.engines b).map (fun m =>
      m.filter (fun p => !(req.instanceIds.contains p.1))) })

/-- `feed.repairEndpoints`: per supplied address, recreate the endpoint
when absent or failing `Ping()` (the same body as `startEndpoints`); the
`AddEngines` pushes are external calls. -/
def repairEndpoints (env : Env) (s : FeedState)
    (req : RepairEndpointsRequest) : Option FeedError × FeedState :=
  match startEndpointsLoop env s.endpoints req.eps with
  | (err, eps) => (err, { s with endpoints := eps })

/-- The eight control operations of the Topic Feed Controller. -/
inductive FeedOp where
  | start (req : MutationTopicRequest)
  | restartVbuckets (req : RestartVbucketsRequest)
  | shutdownVbuckets (req : ShutdownVbucketsRequest)
  | addBuckets (req : AddBucketsRequest)
  | delBuckets (req : DelBucketsRequest)
  | addInstances (req : AddInstancesRequest)
  | delInstances (req : DelInstancesRequest)
  | repairEndpoints (req : RepairEndpointsRequest)

/-- Dispatch of a control operation on the feed state (the body of
`handleCommand` for the eight mutating commands). -/
def applyFeedOp (env : Env) (opq : Nat) (s : FeedState) :
    FeedOp → Option FeedError × FeedState × List ExtCall
  | FeedOp.start req => start env s req opq
  | FeedOp.restartVbuckets req => restartVbuckets env s req opq
  | FeedOp.shutdownVbuckets req => shutdownVbuckets env s req opq
  | FeedOp.addBuckets req => addBuckets env s req opq
  | FeedOp.delBuckets req => delBuckets env s req opq
  | FeedOp.addInstances req =>
    match addInstances env s req with
    | (err, s') => (err, s', [])
  | FeedOp.delInstances req =>
    match delInstances s req with
    | (err, s') => (err, s', [])
  | FeedOp.repairEndpoints req =>
    match repairEndpoints env s req with
    | (err, s') => (err, s', [])

/-- Lifecycle states of an index instance (`common.IndexState`), per the
spec's set `{CREATED, READY, INITIAL, ACTIVE, DELETED}`. -/
inductive IndexState where
  | created
  | ready
  | initialLoad
  | active
  | deleted
deriving DecidableEq, Repr

/-- An index instance inside a topology definition: its id and its
lifecycle state. -/
structure IndexInstDist where
  instId : Nat
  state : IndexState
deriving DecidableEq, Repr

/-- An index definition with its distribution (instances). -/
structure IndexDefnDistribution where
  bucket : String
  name : String
  instances : List IndexInstDist
deriving DecidableEq, Repr

/-- `IndexTopology`: the per-bucket topology with its version. -/
structure IndexTopology where
  bucket : String
  version : Nat
  definitions : List IndexDefnDistribution
deriving DecidableEq, Repr

/-- Modelled from the spec: `FindIndexDefinition(bucket, name)` looks up
the definition with the given bucket and name in the topology (the
lookup helper is not among this repository's sources). -/
def IndexTopology.FindIndexDefinition (t : IndexTopology)
    (bucket name : String) : Option IndexDefnDistribution :=
  t.definitions.find? (fun d => d.bucket == bucket && d.name == name)

/-- `StreamManager.inState`: membership of a state in a possible-state
list, where a nil list (`none`) means any state is accepted. -/
def inState (state : IndexState) (possibleStates : Option (List IndexState)) :
    Bool :=
  match possibleStates with
  | none => true
  | some l => l.contains state

/-- `changeRecord`: one instance (with its definition) selected for an
add/delete admin call. -/
structure ChangeRecord where
  definition : IndexDefnDistribution
  instance_ : IndexInstDist
deriving DecidableEq, Repr

/-- `StreamManager.addInstancesToChangeList`: diff one definition.  For
every new instance, `add` starts as membership of its state in
`toStates`, and every old instance with the same id further requires its
state in `fromStates` and different from the new state.  Each record
below captures the instance value at append time; the Go code instead
stores `instance: &newInst`, a pointer to the single `range` loop
variable (pre-Go-1.22 semantics), so what a caller observes after the
call returns is `addInstancesToChangeListGo` below. -/
def addInstancesToChangeList (oldDefn : Option IndexDefnDistribution)
    (newDefn : IndexDefnDistribution)
    (fromStates toStates : Option (List IndexState)) : List ChangeRecord :=
  newDefn.instances.foldl (fun (changes : List ChangeRecord) newInst =>
    let add := inState newInst.state toStates
    let add := match oldDefn with
      | none => add
      | some od => od.instances.foldl (fun (a : Bool) (oldInst : IndexInstDist) =>
          if newInst.instId == oldInst.instId then
            a && inState oldInst.state fromStates
              && !(oldInst.state == newInst.state)
          else a) add
    if add then changes ++ [⟨newDefn, newInst⟩] else changes) []

/-- `StreamManager.addInstancesToChangeList` as observed by its callers:
the Go loop appends `&changeRecord{definition: newDefn, instance:
&newInst}`, where `newInst` is the one `range` loop variable of this
pre-Go-1.22 tree, so every appended record aliases a single cell that,
once the function returns, holds the last element of
`newDefn.Instances`.  Selection still follows the per-instance
decision, but each returned record's instance payload is the
definition's last instance.  (`handleAddInstances` and
`handleDeleteInstances` pass `&newDefn` the same way, aliasing the
definition field across their outer loops.) -/
def addInstancesToChangeListGo (oldDefn : Option IndexDefnDistribution)
    (newDefn : IndexDefnDistribution)
    (fromStates toStates : Option (List IndexState)) : List ChangeRecord :=
  (addInstancesToChangeList oldDefn newDefn fromStates toStates).map
    (fun c => ⟨c.definition, newDefn.instances.getLastD c.instance_⟩)

/-- The stream ids managed by the Stream Manager. -/
inductive StreamId where
  | maint
  | initStream
deriving DecidableEq, Repr

/-- A local stream handle: its listening status. -/
structure Stream where
  status : Bool
deriving DecidableEq, Repr

/-- Errors surfaced by the Stream Manager. -/
inductive SMError where
  | streamNotOpen
  | envError (n : Nat)
deriving DecidableEq, Repr

/-- Admin calls issued to the producer's admin surface. -/
inductive AdminCall where
  | addIndexToStream (sid : StreamId) (buckets : List String)
      (instances : List Nat)
  | deleteIndexFromStream (sid : StreamId) (buckets : List String)
      (instanceIds : List Nat)
  | restartStream (sid : StreamId)
deriving DecidableEq, Repr

/-- The Stream Manager's mutable state. -/
structure SMState where
  streams : StreamId → Option Stream
  topologies : String → Option IndexTopology
  isClosed : Bool

/-- Oracles for the Stream Manager's collaborators: stream creation and
start, address resolution, topology reads and protobuf materialization.
`adminAdd` / `adminDelete` / `adminRestart` are the results the producer
admin surface returns. -/
structure SMEnv where
  newStream : StreamId → Option SMError
  getAddrForPort : String → Except SMError String
  changeRecordsToProto : List ChangeRecord → Except SMError (List Nat)
  topologyAsInstances : String → Except SMError (List Nat × IndexTopology)
  deletedInstanceIds : List String → Except SMError (List Nat)
  bucketsWithIndexes : Option (List String)
  adminAdd : Option SMError
  adminDelete : Option SMError
  adminRestart : Option SMError

/-- Modelled from the spec: the per-stream listening port is a fixed
mapping from the stream id (the mapping itself is not among this
repository's sources). -/
def getPortForStreamId (sid : StreamId) : String :=
  match sid with
  | StreamId.maint => "maintPort"
  | StreamId.initStream => "initPort"

/-- `StreamManager.addIndexInstances`: closed manager reports success;
a stream that is not open is an error; otherwise one
`AddIndexToStream(streamId, [bucket], instances, nil)` admin call. -/
def addIndexInstances (env : SMEnv) (mgr : SMState) (sid : StreamId)
    (bucket : String) (instances : List Nat) :
    Option SMError × List AdminCall :=
  if mgr.isClosed then (none, [])
  else
    match mgr.streams sid with
    | some st =>
      if st.status then
        (env.adminAdd, [AdminCall.addIndexToStream sid [bucket] instances])
      else (some SMError.streamNotOpen, [])
    | none => (some SMError.streamNotOpen, [])

/-- `StreamManager.removeIndexInstances`: closed manager reports
success; a stream that is not open is an error; otherwise one
`DeleteIndexFromStream(streamId, [bucket], instances)` admin call. -/
def removeIndexInstances (env : SMEnv) (mgr : SMState) (sid : StreamId)
    (bucket : String) (instances : List Nat) :
    Option SMError × List AdminCall :=
  if mgr.isClosed then (none, [])
  else
    match mgr.streams sid with
    | some st =>
      if st.status then
        (env.adminDelete,
         [AdminCall.deleteIndexFromStream sid [bucket] instances])
      else (some SMError.streamNotOpen, [])
    | none => (some SMError.streamNotOpen, [])

/-- `StreamManager.handleAddInstances`: skip when the old topology
exists with the same version; otherwise diff every definition and, if
any change was collected, materialize it and add it to the stream. -/
def handleAddInstances (env : SMEnv) (mgr : SMState) (sid : StreamId)
    (bucket : String) (oldTopology : Option IndexTopology)
    (newTopology : IndexTopology)
    (fromState toState : Option (List IndexState)) :
    Option SMError × List AdminCall :=
  if (match oldTopology with
      | some old => old.version == newTopology.version
      | none => false) then (none, [])
  else
    let changes := newTopology.definitions.foldl (fun acc newDefn =>
      acc ++ addInstancesToChangeList
        (match oldTopology with
         | some old => old.FindIndexDefinition bucket newDefn.name
         | none => none) newDefn fromState toState) []
    if changes.length > 0 then
      match env.getAddrForPort (getPortForStreamId sid) with
      | Except.error e => (some e, [])
      | Except.ok _addr =>
        match env.changeRecordsToProto changes with
        | Except.error e => (some e, [])
        | Except.ok instances => addIndexInstances env mgr sid bucket instances
    else (none, [])

/-- `StreamManager.handleDeleteInstances`: skip when there is no old
topology or its version is unchanged; otherwise diff every definition
and remove the collected instance ids from the stream. -/
def handleDeleteInstances (env : SMEnv) (mgr : SMState) (sid : StreamId)
    (bucket : String) (oldTopology : Option IndexTopology)
    (newTopology : IndexTopology)
    (fromState toState : Option (List IndexState)) :
    Option SMError × List AdminCall :=
  match oldTopology with
  | none => (none, [])
  | some old =>
    if old.version == newTopology.version then (none, [])
    else
      let changes := newTopology.definitions.foldl (fun acc newDefn =>
        acc ++ addInstancesToChangeList
          (old.FindIndexDefinition newDefn.bucket newDefn.name)
          newDefn fromState toState) []
      let toBeDeleted := changes.map (fun c => c.instance_.instId)
      removeIndexInstances env mgr sid bucket toBeDeleted

/-- `StreamManager.handleTopologyChangeForMaintStream`: when the
maintenance stream is open, add `CREATED → READY` transitions and delete
`{ACTIVE, READY} → DELETED` transitions. -/
def handleTopologyChangeForMaintStream (env : SMEnv) (mgr : SMState)
    (newTopology : IndexTopology) : Option SMError × List AdminCall :=
  match mgr.streams StreamId.maint with
  | none => (none, [])
  | some st =>
    if !st.status then (none, [])
    else
      let oldTopology := mgr.topologies newTopology.bucket
      match handleAddInstances env mgr StreamId.maint newTopology.bucket
          oldTopology newTopology
          (some [IndexState.created]) (some [IndexState.ready]) with
      | (some e, calls) => (some e, calls)
      | (none, calls) =>
        match handleDeleteInstances env mgr StreamId.maint newTopology.bucket
            oldTopology newTopology
            (some [IndexState.active, IndexState.ready])
            (some [IndexState.deleted]) with
        | (err, calls') => (err, calls ++ calls')

/-- `StreamManager.handleTopologyChangeForInitStream`: when the init
stream is open, add `CREATED → READY` transitions and delete any-state →
`{DELETED, ACTIVE}` transitions (nil from-states). -/
def handleTopologyChangeForInitStream (env : SMEnv) (mgr : SMState)
    (newTopology : IndexTopology) : Option SMError × List AdminCall :=
  match mgr.streams StreamId.initStream with
  | none => (none, [])
  | some st =>
    if !st.status then (none, [])
    else
      let oldTopology := mgr.topologies newTopology.bucket
      match handleAddInstances env mgr StreamId.initStream newTopology.bucket
          oldTopology newTopology
          (some [IndexState.created]) (some [IndexState.ready]) with
      | (some e, calls) => (some e, calls)
      | (none, calls) =>
        match handleDeleteInstances env mgr StreamId.initStream
            newTopology.bucket oldTopology newTopology none
            (some [IndexState.deleted, IndexState.active]) with
        | (err, calls') => (err, calls ++ calls')

/-- `StreamManager.handleTopologyChange`: maintenance handler, then init
handler, then record the new topology. -/
def handleTopologyChange (env : SMEnv) (mgr : SMState)
    (newTopology : IndexTopology) :
    Option SMError × SMState × List AdminCall :=
  match handleTopologyChangeForMaintStream env mgr newTopology with
  | (some e, calls) => (some e, mgr, calls)
  | (none, calls) =>
    match handleTopologyChangeForInitStream env mgr newTopology with
    | (some e, calls') => (some e, mgr, calls ++ calls')
    | (none, calls') =>
      let mgr' := { mgr with
        topologies := mapSet mgr.topologies newTopology.bucket newTopology }
      (none, mgr', calls ++ calls')

/-- `StreamManager.StartStream`: no-op when closed or already started;
otherwise create and start the receiver and record the stream. -/
def StartStream (env : SMEnv) (mgr : SMState) (sid : StreamId) :
    Option SMError × SMState × List AdminCall :=
  if mgr.isClosed then (none, mgr, [])
  else
    match mgr.streams sid with
    | some st =>
      if st.status then (none, mgr, [])
      else
        match env.newStream sid with
        | some e => (some e, mgr, [])
        | none =>
          (none, { mgr with streams :=
            fun x => if x = sid then some ⟨true⟩ else mgr.streams x }, [])
    | none =>
      match env.newStream sid with
      | some e => (some e, mgr, [])
      | none =>
        (none, { mgr with streams :=
          fun x => if x = sid then some ⟨true⟩ else mgr.streams x }, [])

/-- `StreamManager.AddIndexForBuckets`: closed manager reports success;
requires the stream open; materializes every bucket's topology and
issues one `AddIndexToStream` over the full bucket list. -/
def AddIndexForBuckets (env : SMEnv) (mgr : SMState) (sid : StreamId)
    (buckets : List String) : Option SMError × List AdminCall :=
  if mgr.isClosed then (none, [])
  else
    match mgr.streams sid with
    | none => (some SMError.streamNotOpen, [])
    | some st =>
      if !st.status then (some SMError.streamNotOpen, [])
      else
        match env.getAddrForPort (getPortForStreamId sid) with
        | Except.error e => (some e, [])
        | Except.ok _addr =>
          match buckets.foldlM (fun acc bucket =>
              match env.topologyAsInstances bucket with
              | Except.error e => Except.error e
              | Except.ok (instances, _topology) =>
                Except.ok (acc ++ instances)) ([] : List Nat) with
          | Except.error e => (some e, [])
          | Except.ok allInstances =>
            (env.adminAdd,
             [AdminCall.addIndexToStream sid buckets allInstances])

/-- `StreamManager.AddIndexForAllBuckets`: closed manager reports
success; otherwise add indexes for every bucket that has indexes. -/
def AddIndexForAllBuckets (env : SMEnv) (mgr : SMState) (sid : StreamId) :
    Option SMError × List AdminCall :=
  if mgr.isClosed then (none, [])
  else AddIndexForBuckets env mgr sid (env.bucketsWithIndexes.getD [])

/-- `StreamManager.DeleteIndexForBuckets`: closed manager reports
success; requires the stream open; issues one `DeleteIndexFromStream`
with the deleted instance ids of the buckets. -/
def DeleteIndexForBuckets (env : SMEnv) (mgr : SMState) (sid : StreamId)
    (buckets : List String) : Option SMError × List AdminCall :=
  if mgr.isClosed then (none, [])
  else
    match mgr.streams sid with
    | none => (some SMError.streamNotOpen, [])
    | some st =>
      if !st.status then (some SMError.streamNotOpen, [])
      else
        match env.deletedInstanceIds buckets with
        | Except.error e => (some e, [])
        | Except.ok instances =>
          (env.adminDelete,
           [AdminCall.deleteIndexFromStream sid buckets instances])

/-- `StreamManager.RestartStreamIfNecessary`: closed manager reports
success; otherwise forward to the admin surface. -/
def RestartStreamIfNecessary (env : SMEnv) (mgr : SMState) (sid : StreamId) :
    Option SMError × List AdminCall :=
  if mgr.isClosed then (none, [])
  else (env.adminRestart, [AdminCall.restartStream sid])

/-- `StreamManager.closeStreamNoLock`: no-op when the stream is not
open; otherwise forget it and mark it stopped. -/
def closeStreamNoLock (mgr : SMState) (sid : StreamId) :
    Option SMError × SMState :=
  match mgr.streams sid with
  | none => (none, mgr)
  | some st =>
    if !st.status then (none, mgr)
    else
      (none, { mgr with streams :=
        fun x => if x = sid then none else mgr.streams x })

/-- `StreamManager.CloseStream`: closed manager reports success;
otherwise close the stream locally. -/
def CloseStream (mgr : SMState) (sid : StreamId) :
    Option SMError × SMState × List AdminCall :=
  if mgr.isClosed then (none, mgr, [])
  else
    match closeStreamNoLock mgr sid with
    | (err, mgr') => (err, mgr', [])

/-- The public Stream Manager operations named by the spec. -/
inductive SMOp where
  | startStream (sid : StreamId)
  | addIndexForAllBuckets (sid : StreamId)
  | addIndexForBuckets (sid : StreamId) (buckets : List String)
  | deleteIndexForBuckets (sid : StreamId) (buckets : List String)
  | restartStreamIfNecessary (sid : StreamId)
  | closeStream (sid : StreamId)

/-- Dispatch of a public Stream Manager operation. -/
def applySMOp (env : SMEnv) (mgr : SMState) :
    SMOp → Option SMError × SMState × List AdminCall
  | SMOp.startStream sid => StartStream env mgr sid
  | SMOp.addIndexForAllBuckets sid =>
    match AddIndexForAllBuckets env mgr sid with
    | (err, calls) => (err, mgr, calls)
  | SMOp.addIndexForBuckets sid buckets =>
    match AddIndexForBuckets env mgr sid buckets with
    | (err, calls) => (err, mgr, calls)
  | SMOp.deleteIndexForBuckets sid buckets =>
    match DeleteIndexForBuckets env mgr sid buckets with
    | (err, calls) => (err, mgr, calls)
  | SMOp.restartStreamIfNecessary sid =>
    match RestartStreamIfNecessary env mgr sid with
    | (err, calls) => (err, mgr, calls)
  | SMOp.closeStream sid => CloseStream mgr sid

/-- The error values handed to the scan-side cancel callback. -/
inductive ScanError where
  | clientCancel
  | scanTimedOut
deriving DecidableEq, Repr

/-- The three channels `CancelCb.Run`'s select waits on. -/
inductive Signal where
  | done
  | cancel
  | timeout
deriving DecidableEq, Repr

/-- `CancelCb.Run`: a single select over done / cancel / timeout.  The
argument lists the signals in arrival order; the select consumes the
first and the goroutine exits, so later signals are ignored.  Returns
the list of callback invocations. -/
def runCancelCb (signals : List Signal) : List ScanError :=
  match signals with
  | [] => []
  | Signal.done :: _ => []
  | Signal.cancel :: _ => [ScanError.clientCancel]
  | Signal.timeout :: _ => [ScanError.scanTimedOut]

/-! ### Derived predicates and concrete data used by the theorems -/

/-- The key-set alignment invariant that the feed maintains: `reqTss`,
`rollTss` and `kvdata` have a bucket exactly when `feeders` has it. -/
def streamKeysAligned (s : FeedState) : Prop :=
  ∀ b, ((s.reqTss b).isSome = (s.feeders b).isSome)
    ∧ ((s.rollTss b).isSome = (s.feeders b).isSome)
    ∧ ((s.kvdata b).isSome = (s.feeders b).isSome)

/-- A bucket is installed in the topic if any per-bucket map holds it. -/
def bucketInstalled (s : FeedState) (b : String) : Prop :=
  (s.reqTss b).isSome ∨ (s.rollTss b).isSome ∨ (s.feeders b).isSome
    ∨ (s.kvdata b).isSome ∨ (s.engines b).isSome

/-- All five per-bucket maps are empty at a bucket. -/
def allFiveEmpty (s : FeedState) (b : String) : Prop :=
  s.reqTss b = none ∧ s.rollTss b = none ∧ s.feeders b = none
    ∧ s.kvdata b = none ∧ s.engines b = none

/-- Whether a back-channel message is a `controlStreamRequest` matching
the given bucket, opaque tag and vbucket. -/
def isMatchingReq (b : String) (opq v : Nat) (msg : BackMsg) : Bool :=
  match msg.headD (BVal.slice []) with
  | BVal.ctrlReq val => val.bucket == b && val.opq == opq && val.vbno == v
  | _ => false

/-- One per-vbucket producer response to a `StartVbStreams`. -/
structure VbResponse where
  vbno : Nat
  status : McdStatus
  seqno : Nat
  vbuuid : Nat
deriving DecidableEq, Repr

/-- The back-channel contents produced when the data path posts one
stream-request feedback per response, in order. -/
def responsesToBackMsgs (bucketn kvaddr : String) (opq : Nat)
    (rs : List VbResponse) : List BackMsg :=
  rs.map (fun r => postStreamRequest bucketn kvaddr opq r.status r.vbno r.vbuuid r.seqno)

/-- The rollback-timestamp rows produced by the responses that report
`ROLLBACK`, in arrival order. -/
def rollbackEntries (rs : List VbResponse) : List VbEntry :=
  (rs.filter (fun r => r.status == McdStatus.rollback)).map
    (fun r => ⟨r.vbno, r.seqno, r.vbuuid, 0, 0⟩)

/-- The per-instance decision computed by `addInstancesToChangeList`:
membership of the new state in `toStates`, further conjoined over every
old instance with the same id. -/
def shouldAdd (oldDefn : Option IndexDefnDistribution) (inst : IndexInstDist)
    (fromStates toStates : Option (List IndexState)) : Bool :=
  match oldDefn with
  | none => inState inst.state toStates
  | some od => od.instances.foldl (fun (a : Bool) (oldInst : IndexInstDist) =>
      if inst.instId == oldInst.instId then
        a && inState oldInst.state fromStates && !(oldInst.state == inst.state)
      else a) (inState inst.state toStates)

/-- The spec's reading of a possible-state list: `none` (a nil Go slice)
accepts any state. -/
def stateInProp (s : IndexState) (possibleStates : Option (List IndexState)) :
    Prop :=
  match possibleStates with
  | none => True
  | some l => s ∈ l

/-- The instances of an optional old definition (none when there is no
matching old definition). -/
def oldInstancesOf : Option IndexDefnDistribution → List IndexInstDist
  | none => []
  | some od => od.instances

/-- A subscriber carrying no evaluators and no routers. -/
def emptySub : SubscriberData := ⟨Except.ok [], Except.ok []⟩

/-- An environment in which every external collaborator succeeds: three
vbuckets `[0, 1, 2]` with vbuuids `[10, 11, 12]`, one kv node. -/
def okEnv : Env :=
  ⟨["kv1"],
   fun _ _ => Except.ok ([0, 1, 2], [10, 11, 12]),
   fun _ => Except.ok ⟨1⟩,
   fun _ => none,
   fun _ => none,
   fun _ => Except.ok none⟩

/-- A request timestamp for bucket `b1` in pool `p0` over vbuckets
`[0, 1, 2]` at seqno 100, on the producer's branch. -/
def ts1 : TsVbuuid :=
  ⟨"p0", "b1", [⟨0, 100, 10, 0, 0⟩, ⟨1, 100, 11, 0, 0⟩, ⟨2, 100, 12, 0, 0⟩]⟩

/-- A subscriber with one instance (uuid 7) on bucket `b1` whose router
names no endpoint. -/
def sub1 : SubscriberData :=
  ⟨Except.ok [(7, ⟨"b1"⟩)], Except.ok [(7, ⟨[]⟩)]⟩

/-- The producer responses of the spec's rollback scenario: success for
vbuckets 0 and 1, `ROLLBACK` at `(vb 2, seqno 50, vbuuid 170)`. -/
def rollbackScenario : List VbResponse :=
  [⟨0, McdStatus.success, 100, 10⟩, ⟨1, McdStatus.success, 100, 11⟩,
   ⟨2, McdStatus.rollback, 50, 170⟩]

/-- Stream-request feedback for vbuckets 0, 1, 2 with opaque 17 on
bucket `b1`, all successful. -/
def startFeedback : List BackMsg :=
  responsesToBackMsgs "b1" "kv1" 17
    [⟨0, McdStatus.success, 100, 10⟩, ⟨1, McdStatus.success, 100, 11⟩,
     ⟨2, McdStatus.success, 100, 12⟩]

/-- Stream-end feedback for vbuckets 0, 1, 2 with opaque 18 on bucket
`b1`. -/
def endFeedback : List BackMsg :=
  [postStreamEnd "b1" "kv1" 18 McdStatus.success 0,
   postStreamEnd "b1" "kv1" 18 McdStatus.success 1,
   postStreamEnd "b1" "kv1" 18 McdStatus.success 2]

/-- A fresh feed whose back-channel holds the rollback scenario's
feedback for opaque 17. -/
def rollbackStartState : FeedState :=
  { initFeedState with
    backch := responsesToBackMsgs "b1" "kv1" 17 rollbackScenario }

/-- A fresh feed whose back-channel holds feedback for only two of the
three requested vbuckets (vb 2 never answers). -/
def timeoutStartState : FeedState :=
  { initFeedState with
    backch := responsesToBackMsgs "b1" "kv1" 17
      [⟨0, McdStatus.success, 100, 10⟩, ⟨1, McdStatus.success, 100, 11⟩] }

/-- A fresh feed whose back-channel holds the start feedback (opaque 17)
followed by the stream-end feedback (opaque 18) for bucket `b1`. -/
def roundtripState : FeedState :=
  { initFeedState with backch := startFeedback ++ endFeedback }

/-- A stray stream-request for bucket `b2` tagged with opaque 2. -/
def strayMsg : CtrlStreamRequest := ⟨"b2", "kv1", 2, McdStatus.success, 0, 5, 5⟩

/-- A stream-request for bucket `b1` tagged with opaque 1. -/
def matchMsg : CtrlStreamRequest := ⟨"b1", "kv1", 1, McdStatus.success, 0, 5, 5⟩

/-- A request timestamp for bucket `b1` in pool `p0` with no vbucket
entries (so waits return immediately). -/
def ts9 : TsVbuuid := ⟨"p0", "b1", []⟩

/-- The failing input for the change-list aliasing: a definition whose
first instance (id 1, `READY`) satisfies the diff rule for
`toStates = [READY]` while its last instance (id 2, `CREATED`) does
not. -/
def aliasDefn : IndexDefnDistribution :=
  ⟨"b1", "d1", [⟨1, IndexState.ready⟩, ⟨2, IndexState.created⟩]⟩

/-- A topology with one definition and one instance in `READY` state. -/
def topoV1 : IndexTopology :=
  ⟨"b1", 1, [⟨"b1", "d1", [⟨42, IndexState.ready⟩]⟩]⟩

/-- A Stream Manager state whose maintenance and init streams are open
and which has seen `topoV1` for bucket `b1`. -/
def mgr1 : SMState :=
  ⟨fun _ => some ⟨true⟩, mapSet (fun _ => none) "b1" topoV1, false⟩

/-- A closed Stream Manager state. -/
def closedMgr : SMState := ⟨fun _ => none, fun _ => none, true⟩

/-- A topology for bucket `b1` with the same version as `topoV1` but a
different instance set. -/
def topoV1b : IndexTopology :=
  ⟨"b1", 1, [⟨"b1", "d1", [⟨42, IndexState.ready⟩, ⟨43, IndexState.created⟩]⟩]⟩

/-- A Stream Manager environment in which every collaborator succeeds
trivially. -/
def smEnv : SMEnv :=
  ⟨fun _ => none,
   fun _ => Except.ok "addr",
   fun _ => Except.ok [],
   fun _ => Except.ok ([], ⟨"", 0, []⟩),
   fun _ => Except.ok [],
   some [],
   none, none, none⟩

/-! ### Theorems -/

/-- C8: in the cancel/timeout composition of `CancelCb.Run`, the first
signal among done, cancel and timeout wins; the callback is invoked with
`ErrClientCancel` when cancel wins and `ErrScanTimedOut` when timeout
wins, is not invoked when done wins, and in every run is invoked at most
once. -/
theorem cancelCb_first_signal_wins (rest signals : List Signal) :
    runCancelCb (Signal.done :: rest) = []
    ∧ runCancelCb (Signal.cancel :: rest) = [ScanError.clientCancel]
    ∧ runCancelCb (Signal.timeout :: rest) = [ScanError.scanTimedOut]
    ∧ (runCancelCb signals).length ≤ 1 := by
  refine ⟨rfl, rfl, rfl, ?_⟩
  cases signals with
  | nil => simp [runCancelCb]
  | cons h t => cases h <;> simp [runCancelCb]

/-- C10: after `StreamManager.Close()` has set `isClosed`, every public
Stream Manager operation returns nil and issues no admin call. -/
theorem closed_manager_ops_noop (env : SMEnv) (mgr : SMState) (op : SMOp)
    (h : mgr.isClosed = true) :
    (applySMOp env mgr op).1 = none ∧ (applySMOp env mgr op).2.2 = [] := by
  cases op <;>
    simp [applySMOp, StartStream, AddIndexForAllBuckets, AddIndexForBuckets,
      DeleteIndexForBuckets, RestartStreamIfNecessary, CloseStream, h]

/-- Witness for C10 at the closed manager and the six operations'
representative `StartStream`. -/
theorem closed_manager_ops_noop_witness :
    closedMgr.isClosed = true
    ∧ (applySMOp smEnv closedMgr (SMOp.startStream StreamId.maint)).1 = none
    ∧ (applySMOp smEnv closedMgr (SMOp.startStream StreamId.maint)).2.2 = [] :=
  ⟨rfl,
   (closed_manager_ops_noop smEnv closedMgr (SMOp.startStream StreamId.maint)
     rfl).1,
   (closed_manager_ops_noop smEnv closedMgr (SMOp.startStream StreamId.maint)
     rfl).2⟩

/-- C2 (code bug): `waitOnFeedback` re-queues a skipped message `msg` as
`[]interface{}{msg}`, wrapping the already-received slice in a fresh
one-element slice.  A wait for `("b1", 1)` that receives a stray message
for `("b2", 2)` therefore re-queues it double-wrapped, and a subsequent
wait for `("b2", 2)` can never match it: its callback sees a slice, not
a `*controlStreamRequest`, skips it forever, and the wait returns
`responseTimeout` instead of consuming the stray. -/
theorem requeued_feedback_wrapped_and_unmatchable :
    (waitStreamRequests 1 "p" "b1" [0]
      [[BVal.ctrlReq strayMsg], [BVal.ctrlReq matchMsg]]).1.2 = none
    ∧ (waitStreamRequests 1 "p" "b1" [0]
        [[BVal.ctrlReq strayMsg], [BVal.ctrlReq matchMsg]]).2
      = [[BVal.slice [BVal.ctrlReq strayMsg]]]
    ∧ (waitStreamRequests 2 "p" "b2" [0]
        [[BVal.slice [BVal.ctrlReq strayMsg]]]).1.2
      = some FeedError.responseTimeout := by
  exact ⟨rfl, rfl, rfl⟩

/-- Helper: `addInstancesToChangeList` is the fold of the per-instance
decision `shouldAdd`. -/
theorem aicl_eq (od : Option IndexDefnDistribution)
    (nd : IndexDefnDistribution) (fs ts : Option (List IndexState)) :
    addInstancesToChangeList od nd fs ts
      = nd.instances.foldl (fun (changes : List ChangeRecord) i =>
          if shouldAdd od i fs ts then changes ++ [⟨nd, i⟩] else changes) [] :=
  rfl

/-- Helper: a conditional-append fold is filter-then-map. -/
theorem foldl_filter_append {α β : Type} (p : α → Bool) (f : α → β) :
    ∀ (l : List α) (acc : List β),
      l.foldl (fun cs i => if p i then cs ++ [f i] else cs) acc
        = acc ++ (l.filter p).map f := by
  intro l
  induction l with
  | nil => intro acc; simp
  | cons a t ih =>
    intro acc
    by_cases h : p a <;> simp [List.filter_cons, h, ih]

/-- Helper: `inState` decides the spec's possible-state membership. -/
theorem inState_iff (s : IndexState) (l : Option (List IndexState)) :
    inState s l = true ↔ stateInProp s l := by
  cases l with
  | none => simp [inState, stateInProp]
  | some xs => simp [inState, stateInProp]

/-- Helper: the old-instance fold of `addInstancesToChangeList` is the
conjunction over all old instances with a matching id. -/
theorem shouldAdd_fold (i : IndexInstDist) (fs : Option (List IndexState)) :
    ∀ (l : List IndexInstDist) (b : Bool),
      l.foldl (fun (a : Bool) (o : IndexInstDist) =>
          if i.instId == o.instId then
            a && inState o.state fs && !(o.state == i.state)
          else a) b
        = (b && l.all (fun o => !(i.instId == o.instId)
            || (inState o.state fs && !(o.state == i.state)))) := by
  intro l
  induction l with
  | nil => intro b; simp
  | cons o t ih =>
    intro b
    simp only [List.foldl_cons, List.all_cons]
    cases hx : (i.instId == o.instId) with
    | false =>
      simp only [hx, Bool.false_eq_true, if_false]
      rw [ih]
      simp [hx]
    | true =>
      simp only [hx, if_true]
      rw [ih]
      simp [hx, Bool.and_assoc]

/-- Helper: the per-instance decision of the source agrees with the
spec's diff rule. -/
theorem shouldAdd_iff (od : Option IndexDefnDistribution) (i : IndexInstDist)
    (fs ts : Option (List IndexState)) :
    shouldAdd od i fs ts = true ↔
      (stateInProp i.state ts
       ∧ ∀ o ∈ oldInstancesOf od, o.instId = i.instId →
           stateInProp o.state fs ∧ o.state ≠ i.state) := by
  cases od with
  | none => simp [shouldAdd, oldInstancesOf, inState_iff]
  | some odd =>
    rw [shouldAdd, shouldAdd_fold, Bool.and_eq_true, List.all_eq_true,
      inState_iff]
    constructor
    · rintro ⟨h1, h2⟩
      refine ⟨h1, ?_⟩
      intro o ho hid
      have hthis := h2 o ho
      have hbeq : (i.instId == o.instId) = true := by simp [hid]
      rw [hbeq] at hthis
      simp only [Bool.not_true, Bool.false_or, Bool.and_eq_true,
        Bool.not_eq_true', beq_eq_false_iff_ne] at hthis
      exact ⟨(inState_iff _ _).mp hthis.1, hthis.2⟩
    · rintro ⟨h1, h2⟩
      refine ⟨h1, ?_⟩
      intro o ho
      by_cases hid : i.instId = o.instId
      · have h3 := h2 o ho hid.symm
        have hi : inState o.state fs = true := (inState_iff o.state fs).mpr h3.1
        have hs : (o.state == i.state) = false := beq_eq_false_iff_ne.mpr h3.2
        simp [hid, hi, hs]
      · simp [hid]

/-- C7 (code bug): the per-instance decision of
`addInstancesToChangeList` is exactly the claimed diff rule — the new
state's membership in `toStates`, conjoined, for every old instance
with the same instance-id, with membership in `fromStates` and a state
change, a nil list accepting any state — and one record is appended per
selected instance; but the source stores `instance: &newInst`, the
shared `range` loop variable, so every record a caller reads reports
the definition's *last* instance.  On a definition whose first instance
(id 1, `READY`) is selected and whose last (id 2, `CREATED`) is not,
the returned list is one record carrying instance 2, not the selected
instance 1. -/
theorem addInstancesToChangeList_aliasing (od : Option IndexDefnDistribution)
    (nd : IndexDefnDistribution) (fs ts : Option (List IndexState)) :
    (∀ i : IndexInstDist, shouldAdd od i fs ts = true ↔
        (stateInProp i.state ts
         ∧ ∀ o ∈ oldInstancesOf od, o.instId = i.instId →
             stateInProp o.state fs ∧ o.state ≠ i.state))
    ∧ addInstancesToChangeListGo od nd fs ts
        = (nd.instances.filter (fun i => shouldAdd od i fs ts)).map
            (fun i => (⟨nd, nd.instances.getLastD i⟩ : ChangeRecord))
    ∧ shouldAdd none ⟨1, IndexState.ready⟩ none (some [IndexState.ready])
        = true
    ∧ shouldAdd none ⟨2, IndexState.created⟩ none (some [IndexState.ready])
        = false
    ∧ addInstancesToChangeListGo none aliasDefn none (some [IndexState.ready])
        = [⟨aliasDefn, ⟨2, IndexState.created⟩⟩] := by
  refine ⟨fun i => shouldAdd_iff od i fs ts, ?_, rfl, rfl, rfl⟩
  unfold addInstancesToChangeListGo
  rw [aicl_eq, foldl_filter_append]
  simp [List.map_map]

/-- C6: when the last-seen topology for the bucket exists with the same
version, the topology-change handlers issue no admin call, for either
stream. -/
theorem same_version_no_admin_calls (env : SMEnv) (mgr : SMState)
    (old newT : IndexTopology)
    (hold : mgr.topologies newT.bucket = some old)
    (hver : old.version = newT.version) :
    (handleTopologyChange env mgr newT).2.2 = [] := by
  have hadd : ∀ sid fs ts,
      handleAddInstances env mgr sid newT.bucket (mgr.topologies newT.bucket)
        newT fs ts = (none, []) := by
    intro sid fs ts
    simp [handleAddInstances, hold, hver]
  have hdel : ∀ sid fs ts,
      handleDeleteInstances env mgr sid newT.bucket (mgr.topologies newT.bucket)
        newT fs ts = (none, []) := by
    intro sid fs ts
    simp [handleDeleteInstances, hold, hver]
  have hmaint : handleTopologyChangeForMaintStream env mgr newT = (none, []) := by
    unfold handleTopologyChangeForMaintStream
    cases hm : mgr.streams StreamId.maint with
    | none => rfl
    | some st =>
      cases hst : st.status with
      | false => simp [hst]
      | true => simp [hst, hadd, hdel]
  have hinit : handleTopologyChangeForInitStream env mgr newT = (none, []) := by
    unfold handleTopologyChangeForInitStream
    cases hm : mgr.streams StreamId.initStream with
    | none => rfl
    | some st =>
      cases hst : st.status with
      | false => simp [hst]
      | true => simp [hst, hadd, hdel]
  simp [handleTopologyChange, hmaint, hinit]

/-- Witness for C6: an open manager that has seen `topoV1` receives a
same-version topology and issues no admin call. -/
theorem same_version_no_admin_calls_witness :
    mgr1.topologies topoV1b.bucket = some topoV1
    ∧ topoV1.version = topoV1b.version
    ∧ (handleTopologyChange smEnv mgr1 topoV1b).2.2 = [] :=
  ⟨rfl, rfl, same_version_no_admin_calls smEnv mgr1 topoV1 topoV1b rfl rfl⟩

/-- Helper: `processSubscribers` only touches `engines` and
`endpoints`; the four stream maps and the back-channel are unchanged. -/
theorem processSubscribers_frame (env : Env) (s : FeedState)
    (sub : SubscriberData) :
    (processSubscribers env s sub).2.reqTss = s.reqTss
    ∧ (processSubscribers env s sub).2.rollTss = s.rollTss
    ∧ (processSubscribers env s sub).2.feeders = s.feeders
    ∧ (processSubscribers env s sub).2.kvdata = s.kvdata
    ∧ (processSubscribers env s sub).2.backch = s.backch := by
  unfold processSubscribers
  split
  · exact ⟨rfl, rfl, rfl, rfl, rfl⟩
  · split <;> exact ⟨rfl, rfl, rfl, rfl, rfl⟩

/-- Helper: `processSubscribers` preserves the key-set alignment. -/
theorem processSubscribers_aligned (env : Env) (s : FeedState)
    (sub : SubscriberData) (h : streamKeysAligned s) :
    streamKeysAligned (processSubscribers env s sub).2 := by
  have hf := processSubscribers_frame env s sub
  intro b
  rw [hf.1, hf.2.1, hf.2.2.1, hf.2.2.2.1]
  exact h b

/-- Helper: the start loop preserves the key-set alignment: each
iteration installs `reqTss`, `rollTss`, `feeders` and `kvdata` for its
bucket together, or returns before touching any of them. -/
theorem startLoop_aligned (env : Env) (opq : Nat) :
    ∀ (ls : List TsVbuuid) (s : FeedState),
      streamKeysAligned s → streamKeysAligned (startLoop env opq s ls).2.1 := by
  intro ls
  induction ls with
  | nil => intro s h; exact h
  | cons ts rest ih =>
    intro s h
    simp only [startLoop]
    split
    · exact h
    · split
      · exact h
      · refine ih _ ?_
        intro b
        by_cases hb : b = ts.GetBucket
        · simp [mapSet, hb]
        · have hh := h b
          simp only [mapSet, if_neg hb]
          exact hh

/-- Helper: the add-buckets loop preserves the key-set alignment. -/
theorem addBucketsLoop_aligned (env : Env) (opq : Nat) :
    ∀ (ls : List TsVbuuid) (s : FeedState),
      streamKeysAligned s →
        streamKeysAligned (addBucketsLoop env opq s ls).2.1 := by
  intro ls
  induction ls with
  | nil => intro s h; exact h
  | cons ts rest ih =>
    intro s h
    simp only [addBucketsLoop]
    split
    · exact h
    · split
      · exact h
      · refine ih _ ?_
        intro b
        by_cases hb : b = ts.GetBucket
        · simp [mapSet, hb]
        · have hh := h b
          simp only [mapSet, if_neg hb]
          exact hh

/-- Helper: the restart loop preserves the key-set alignment: it only
overwrites `reqTss` and `rollTss` for a bucket it checked to be
present. -/
theorem restartLoop_aligned (env : Env) (opq : Nat) :
    ∀ (ls : List TsVbuuid) (s : FeedState),
      streamKeysAligned s →
        streamKeysAligned (restartLoop env opq s ls).2.1 := by
  intro ls
  induction ls with
  | nil => intro s h; exact h
  | cons ts rest ih =>
    intro s h
    simp only [restartLoop]
    split
    case _ reqTs _kv hreq hkv =>
      split
      · exact h
      · split
        · exact h
        · split
          · exact h
          · split
            · exact h
            · refine ih _ ?_
              intro b
              by_cases hb : b = ts.GetBucket
              · subst hb
                have h1 := (h ts.GetBucket).1
                have h3 := (h ts.GetBucket).2.2
                rw [hreq] at h1
                simp [mapSet, ← h1, ← h3, hkv]
              · have hh := h b
                simp only [mapSet, if_neg hb]
                exact hh
    case _ => exact h

/-- Helper: the shutdown loop preserves the key-set alignment: it only
overwrites `reqTss` for a bucket it checked to be present. -/
theorem shutdownLoop_aligned (env : Env) (opq : Nat) :
    ∀ (ls : List TsVbuuid) (s : FeedState),
      streamKeysAligned s →
        streamKeysAligned (shutdownLoop env opq s ls).2.1 := by
  intro ls
  induction ls with
  | nil => intro s h; exact h
  | cons ts rest ih =>
    intro s h
    simp only [shutdownLoop]
    split
    case _ => exact h
    case _ reqTs hreq =>
      split
      · exact h
      · split
        · exact h
        · refine ih _ ?_
          intro b
          by_cases hb : b = ts.GetBucket
          · subst hb
            have h1 := (h ts.GetBucket).1
            have h2 := (h ts.GetBucket).2.1
            have h3 := (h ts.GetBucket).2.2
            rw [hreq] at h1
            simp [mapSet, ← h1, h2, h3]
          · have hh := h b
            simp only [mapSet, if_neg hb]
            exact hh

/-- Helper: the del-buckets loop preserves the key-set alignment: each
iteration erases the bucket from all the maps together. -/
theorem delBucketsLoop_aligned (env : Env) (opq : Nat) :
    ∀ (ls : List String) (s : FeedState),
      streamKeysAligned s →
        streamKeysAligned (delBucketsLoop env opq s ls).2.1 := by
  intro ls
  induction ls with
  | nil => intro s h; exact h
  | cons bn rest ih =>
    intro s h
    simp only [delBucketsLoop]
    split
    · exact h
    · split
      · exact h
      · split
        · exact h
        · refine ih _ ?_
          intro b
          by_cases hb : b = bn
          · simp [mapDel, hb]
          · have hh := h b
            simp only [mapDel, if_neg hb]
            exact hh

/-- C1 (amended): upon return of every control operation — success or
error — the maps `feeders`, `reqTss`, `rollTss` and `kvdata` have
identical key sets over bucket names.  (`engines` is excluded: see the
counterexample, where `processSubscribers` installs an engine for a
bucket that is not streaming.) -/
theorem feedOp_keysets_aligned (env : Env) (opq : Nat) (s : FeedState)
    (op : FeedOp) (h : streamKeysAligned s) :
    streamKeysAligned (applyFeedOp env opq s op).2.1 := by
  cases op with
  | start req =>
    show streamKeysAligned (start env s req opq).2.1
    unfold start
    split
    case _ e s' heq =>
      have hps := processSubscribers_aligned env s req.sub h
      rw [heq] at hps
      exact hps
    case _ s' heq =>
      have hps := processSubscribers_aligned env s req.sub h
      rw [heq] at hps
      exact startLoop_aligned env opq req.reqTimestamps s' hps
  | restartVbuckets req =>
    exact restartLoop_aligned env opq req.restartTimestamps s h
  | shutdownVbuckets req =>
    exact shutdownLoop_aligned env opq req.shutdownTimestamps s h
  | addBuckets req =>
    show streamKeysAligned (addBuckets env s req opq).2.1
    unfold addBuckets
    split
    case _ e s' heq =>
      have hps := processSubscribers_aligned env s req.sub h
      rw [heq] at hps
      exact hps
    case _ s' heq =>
      have hps := processSubscribers_aligned env s req.sub h
      rw [heq] at hps
      exact addBucketsLoop_aligned env opq req.reqTimestamps s' hps
  | delBuckets req =>
    exact delBucketsLoop_aligned env opq req.buckets s h
  | addInstances req =>
    exact fun b => processSubscribers_aligned env s req.sub h b
  | delInstances req =>
    exact fun b => h b
  | repairEndpoints req =>
    exact fun b => h b

/-- Witness for C1's amended invariant: the fresh feed is aligned and a
`start` on it leaves it aligned. -/
theorem feedOp_keysets_aligned_witness :
    streamKeysAligned initFeedState
    ∧ streamKeysAligned
        (applyFeedOp okEnv 17 initFeedState
          (FeedOp.start ⟨[ts1], sub1⟩)).2.1 :=
  ⟨fun _ => ⟨rfl, rfl, rfl⟩,
   feedOp_keysets_aligned okEnv 17 initFeedState
     (FeedOp.start ⟨[ts1], sub1⟩) (fun _ => ⟨rfl, rfl, rfl⟩)⟩

/-- Counterexample to C1 as stated: a successful `addInstances` (one of
the listed control operations) installs an engine for bucket `b1` while
`feeders` has no entry for `b1`, so `feeders` and `engines` do not have
identical key sets upon return. -/
theorem feedOp_keysets_counterexample :
    (applyFeedOp okEnv 1 initFeedState (FeedOp.addInstances ⟨sub1⟩)).1 = none
    ∧ ((applyFeedOp okEnv 1 initFeedState
        (FeedOp.addInstances ⟨sub1⟩)).2.1.engines "b1").isSome = true
    ∧ (applyFeedOp okEnv 1 initFeedState
        (FeedOp.addInstances ⟨sub1⟩)).2.1.feeders "b1" = none :=
  ⟨rfl, rfl, rfl⟩

/-- Helper: `bucketFeed` always resolves vbmap and failover logs with
the pool and bucket taken from its timestamp argument: its trace is the
single `bucketDetails` call at `(reqTs.GetPool(), reqTs.GetBucket())`. -/
theorem bucketFeed_trace (env : Env) (s : FeedState) (stop strt : Bool)
    (reqTs : TsVbuuid) :
    (bucketFeed env s stop strt reqTs).2
      = [ExtCall.bucketDetailsCall reqTs.GetPool reqTs.GetBucket] := by
  unfold bucketFeed
  dsimp only
  repeat' split
  all_goals rfl

/-- Helper: a property of the callback state preserved by the callback
is preserved by the whole drain loop. -/
theorem drainLoop_preserve {σ : Type} (cb : σ → BVal → σ × CbRes)
    (P : σ → Prop) (hcb : ∀ st v, P st → P (cb st v).1) :
    ∀ (q sk : List BackMsg) (st : σ), P st → P (drainLoop cb st q sk).1 := by
  intro q
  induction q with
  | nil => intro sk st h; exact h
  | cons m rest ih =>
    intro sk st h
    simp only [drainLoop]
    split
    case _ st' heq =>
      refine ih _ st' ?_
      have hp := hcb st (m.headD (BVal.slice [])) h
      rw [heq] at hp
      exact hp
    case _ st' heq =>
      have hp := hcb st (m.headD (BVal.slice [])) h
      rw [heq] at hp
      exact hp
    case _ st' heq =>
      refine ih _ st' ?_
      have hp := hcb st (m.headD (BVal.slice [])) h
      rw [heq] at hp
      exact hp

/-- Helper: the stream-request callback never changes the pool and
bucket fields of the rollback timestamp it accumulates. -/
theorem wsrCallb_fields (opq : Nat) (bucketn : String) (st : WsrState)
    (v : BVal) :
    ((wsrCallb opq bucketn st v).1).rollTs.pool = st.rollTs.pool
    ∧ ((wsrCallb opq bucketn st v).1).rollTs.bucket = st.rollTs.bucket := by
  unfold wsrCallb
  repeat' split
  all_goals exact ⟨rfl, rfl⟩

/-- Helper: the rollback timestamp returned by `waitStreamRequests`
carries exactly the pool and bucket names it was given. -/
theorem waitStreamRequests_fields (opq : Nat) (pooln bucketn : String)
    (vbnos : List Nat) (backch : List BackMsg) :
    ((waitStreamRequests opq pooln bucketn vbnos backch).1.1).pool = pooln
    ∧ ((waitStreamRequests opq pooln bucketn vbnos backch).1.1).bucket
        = bucketn := by
  unfold waitStreamRequests
  split
  · exact ⟨rfl, rfl⟩
  · exact drainLoop_preserve (wsrCallb opq bucketn)
      (fun st => st.rollTs.pool = pooln ∧ st.rollTs.bucket = bucketn)
      (fun st v hP => by
        have hf := wsrCallb_fields opq bucketn st v
        exact ⟨hf.1.trans hP.1, hf.2.trans hP.2⟩)
      backch [] ⟨newTsVbuuid pooln bucketn, vbnos⟩ ⟨rfl, rfl⟩

/-- C9 (amended): in `start`, `pooln` and `bucketn` are both bound to
`reqTs.GetBucket()`, so the rollback timestamp's pool field equals the
bucket name; `restartVbuckets` and `addBuckets` bind the pool from
`reqTs.GetPool()`; but the vbucket maps and failover logs are resolved
inside `bucketFeed`, which always takes the pool from
`reqTs.GetPool()` — also on the `start` path. -/
theorem start_pool_binding (env env' env'' : Env) (s s' s'' : FeedState)
    (sub sub' : SubscriberData) (ts ts' ts'' : TsVbuuid)
    (opq opq' opq'' : Nat) (s₁ : FeedState)
    (hsub : processSubscribers env s sub = (none, s₁))
    (hrun : (start env s ⟨[ts], sub⟩ opq).1 = none)
    (hrun' : (addBuckets env' s' ⟨[ts'], sub'⟩ opq').1 = none)
    (hrun'' : (restartVbuckets env'' s'' ⟨[ts'']⟩ opq'').1 = none) :
    (start env s ⟨[ts], sub⟩ opq).2.2
      = [ExtCall.bucketDetailsCall ts.GetPool ts.GetBucket]
    ∧ (∃ r, (start env s ⟨[ts], sub⟩ opq).2.1.rollTss ts.GetBucket = some r
        ∧ r.pool = ts.GetBucket)
    ∧ (∃ r, (addBuckets env' s' ⟨[ts'], sub'⟩ opq').2.1.rollTss ts'.GetBucket
        = some r ∧ r.pool = ts'.GetPool)
    ∧ (∃ r, (restartVbuckets env'' s'' ⟨[ts'']⟩ opq'').2.1.rollTss
          ts''.GetBucket = some r ∧ r.pool = ts''.GetPool) := by
  refine ⟨?_, ?_, ?_, ?_⟩
  · unfold start
    rw [show (⟨[ts], sub⟩ : MutationTopicRequest).sub = sub from rfl, hsub]
    simp only [startLoop]
    split
    case _ e tr heq =>
      have ht := bucketFeed_trace env s₁ false true ts
      rw [heq] at ht
      exact ht
    case _ feeder tr heq =>
      have ht := bucketFeed_trace env s₁ false true ts
      rw [heq] at ht
      split
      · exact ht
      · simpa using ht
  · revert hrun
    unfold start
    rw [show (⟨[ts], sub⟩ : MutationTopicRequest).sub = sub from rfl, hsub]
    simp only [startLoop]
    split
    case _ e tr heq => intro hrun; exact absurd hrun (by simp)
    case _ feeder tr heq =>
      split
      case _ e heq2 => intro hrun; exact absurd hrun (by simp)
      case _ heq2 =>
        intro _
        refine ⟨(waitStreamRequests opq ts.GetBucket ts.GetBucket
          ts.GetVbnos s₁.backch).1.1, ?_, ?_⟩
        · simp [mapSet]
        · exact (waitStreamRequests_fields opq ts.GetBucket ts.GetBucket
            ts.GetVbnos s₁.backch).1
  · revert hrun'
    unfold addBuckets
    split
    case _ e s₂ heq => intro hrun'; exact absurd hrun' (by simp)
    case _ s₂ heq =>
      simp only [addBucketsLoop]
      split
      case _ e tr heq1 => intro hrun'; exact absurd hrun' (by simp)
      case _ feeder tr heq1 =>
        split
        case _ e heq2 => intro hrun'; exact absurd hrun' (by simp)
        case _ heq2 =>
          intro _
          refine ⟨(waitStreamRequests opq' ts'.GetPool ts'.GetBucket
            ts'.GetVbnos s₂.backch).1.1, ?_, ?_⟩
          · simp [mapSet]
          · exact (waitStreamRequests_fields opq' ts'.GetPool ts'.GetBucket
              ts'.GetVbnos s₂.backch).1
  · revert hrun''
    unfold restartVbuckets
    simp only [restartLoop]
    split
    case _ reqTs _kv heqa heqb =>
      split
      case _ e tr heq1 => intro hrun''; exact absurd hrun'' (by simp)
      case _ feeder tr heq1 =>
        split
        case _ e bk heq2 => intro hrun''; exact absurd hrun'' (by simp)
        case _ bk heq2 =>
          split
          case _ e tr2 heq3 => intro hrun''; exact absurd hrun'' (by simp)
          case _ feeder2 tr2 heq3 =>
            split
            case _ e heq4 => intro hrun''; exact absurd hrun'' (by simp)
            case _ heq4 =>
              intro _
              refine ⟨(waitStreamRequests opq'' ts''.GetPool ts''.GetBucket
                ts''.GetVbnos bk).1.1, ?_, ?_⟩
              · simp [mapSet]
              · exact (waitStreamRequests_fields opq'' ts''.GetPool
                  ts''.GetBucket ts''.GetVbnos bk).1
    case _ => intro hrun''; exact absurd hrun'' (by simp)

/-- Witness for C9's amended statement at empty-vbucket timestamps on
the all-success environment. -/
theorem start_pool_binding_witness :
    processSubscribers okEnv initFeedState emptySub = (none, initFeedState)
    ∧ (start okEnv initFeedState ⟨[ts9], emptySub⟩ 1).1 = none
    ∧ (∃ r, (start okEnv initFeedState
        ⟨[ts9], emptySub⟩ 1).2.1.rollTss "b1" = some r ∧ r.pool = "b1") :=
  ⟨rfl, rfl,
   (start_pool_binding okEnv okEnv okEnv initFeedState initFeedState
     (start okEnv initFeedState ⟨[ts9], emptySub⟩ 1).2.1
     emptySub emptySub ts9 ts9 ts9 1 2 3 initFeedState
     rfl rfl rfl rfl).2.1⟩

/-- Counterexample to C9 as stated: a successful `start` for a
timestamp with pool `p0` and bucket `b1` resolves the vbucket map and
failover logs through a `bucketDetails` call at pool `p0`, not at the
bucket name `b1`. -/
theorem start_pool_counterexample :
    (start okEnv initFeedState ⟨[ts9], emptySub⟩ 1).1 = none
    ∧ (start okEnv initFeedState ⟨[ts9], emptySub⟩ 1).2.2
        = [ExtCall.bucketDetailsCall "p0" "b1"]
    ∧ "p0" ≠ "b1" :=
  ⟨rfl, rfl, by decide⟩

/-- Helper: one drain step on a matching stream-request feedback:
consume it, append the rollback report if any, and stop when the pending
vbucket set empties. -/
theorem drainLoop_wsr_step (opq : Nat) (b kv : String) (r : VbResponse)
    (pending : List Nat) (roll : TsVbuuid) (q : List BackMsg)
    (sk : List BackMsg) :
    drainLoop (wsrCallb opq b) ⟨roll, pending⟩
        (postStreamRequest b kv opq r.status r.vbno r.vbuuid r.seqno :: q) sk
      = (if (removeUint16 r.vbno pending).isEmpty then
          (⟨if r.status == McdStatus.rollback then
              roll.Append r.vbno r.seqno r.vbuuid 0 0 else roll,
            removeUint16 r.vbno pending⟩, true, q, sk)
         else
          drainLoop (wsrCallb opq b)
            ⟨if r.status == McdStatus.rollback then
                roll.Append r.vbno r.seqno r.vbuuid 0 0 else roll,
              removeUint16 r.vbno pending⟩ q sk) := by
  by_cases hp : (removeUint16 r.vbno pending).isEmpty <;>
    simp [drainLoop, postStreamRequest, wsrCallb, hp]

/-- Helper: draining exactly the matching per-vbucket responses (in
request order, no duplicated vbucket) consumes them all, appends every
`ROLLBACK` report in order, and leaves any trailing queue unread. -/
theorem drainLoop_wsr_exact (opq : Nat) (b kv : String) :
    ∀ (rs : List VbResponse) (roll : TsVbuuid) (extra : List BackMsg),
      rs ≠ [] → (rs.map (fun r => r.vbno)).Nodup →
      drainLoop (wsrCallb opq b) ⟨roll, rs.map (fun r => r.vbno)⟩
          (responsesToBackMsgs b kv opq rs ++ extra) []
        = (⟨{ roll with entries := roll.entries ++ rollbackEntries rs }, []⟩,
           true, extra, []) := by
  intro rs
  induction rs with
  | nil => intro roll extra hne _; exact absurd rfl hne
  | cons r rest ih =>
    intro roll extra _ hnd
    have hmem : r.vbno ∉ rest.map (fun x => x.vbno) :=
      (List.nodup_cons.mp (by simpa using hnd)).1
    have hnd' : (rest.map (fun x => x.vbno)).Nodup :=
      (List.nodup_cons.mp (by simpa using hnd)).2
    have hfilt : removeUint16 r.vbno ((r :: rest).map (fun x => x.vbno))
        = rest.map (fun x => x.vbno) := by
      simp only [removeUint16, List.map_cons, List.filter_cons,
        beq_self_eq_true, Bool.not_true, Bool.false_eq_true, if_false]
      exact List.filter_eq_self.mpr (fun a ha => by
        simp only [Bool.not_eq_true', beq_eq_false_iff_ne]
        intro hcontra
        exact hmem (hcontra ▸ ha))
    have hstep := drainLoop_wsr_step opq b kv r
      ((r :: rest).map (fun x => x.vbno)) roll
      (responsesToBackMsgs b kv opq rest ++ extra) []
    rw [hfilt] at hstep
    simp only [responsesToBackMsgs, List.map_cons, List.cons_append]
    rw [show responsesToBackMsgs b kv opq rest
        = rest.map (fun x => postStreamRequest b kv opq x.status x.vbno
            x.vbuuid x.seqno) from rfl] at hstep
    simp only [List.map_cons] at hstep
    rw [hstep]
    cases rest with
    | nil =>
      simp only [List.map_nil, List.isEmpty_nil, if_true]
      cases hst : r.status == McdStatus.rollback <;>
        simp [rollbackEntries, hst, TsVbuuid.Append]
    | cons r2 rest2 =>
      simp only [List.map_cons, List.isEmpty_cons, Bool.false_eq_true,
        if_false]
      have ihh := ih (if r.status == McdStatus.rollback then
          roll.Append r.vbno r.seqno r.vbuuid 0 0 else roll) extra
        (by simp) hnd'
      simp only [responsesToBackMsgs, List.map_cons, List.cons_append] at ihh
      refine Eq.trans ihh ?_
      cases hst : r.status == McdStatus.rollback <;>
        simp [rollbackEntries, List.filter_cons, hst, TsVbuuid.Append,
          List.append_assoc]

/-- Helper: `waitStreamRequests` on exactly the matching responses
returns success with the rollback timestamp holding every `ROLLBACK`
report, and leaves the trailing queue on the back-channel. -/
theorem waitStreamRequests_exact (opq : Nat) (pooln bucketn kv : String)
    (rs : List VbResponse) (extra : List BackMsg)
    (hnd : (rs.map (fun r => r.vbno)).Nodup) :
    waitStreamRequests opq pooln bucketn (rs.map (fun r => r.vbno))
        (responsesToBackMsgs bucketn kv opq rs ++ extra)
      = ((⟨pooln, bucketn, rollbackEntries rs⟩, none), extra) := by
  cases hrs : rs with
  | nil =>
    simp [waitStreamRequests, responsesToBackMsgs, rollbackEntries,
      newTsVbuuid]
  | cons r rest =>
    have hne : (r :: rest) ≠ [] := by simp
    have hnd2 : ((r :: rest).map (fun x => x.vbno)).Nodup := hrs ▸ hnd
    unfold waitStreamRequests
    rw [if_neg (by simp)]
    unfold waitOnFeedback
    rw [drainLoop_wsr_exact opq bucketn kv (r :: rest)
      (newTsVbuuid pooln bucketn) extra hne hnd2]
    simp [newTsVbuuid]

/-- C3: a per-vbucket `ROLLBACK` during a stream-start wait is not an
error: when every requested vbucket answers (a subset with `ROLLBACK`),
`start` returns success, `reqTss[bucket]` holds the full request
timestamp (every requested vbucket), and `rollTss[bucket]` holds exactly
the rolled-back vbuckets at their reported seqnos and vbuuids. -/
theorem start_rollback_not_error (env : Env) (s s₁ : FeedState)
    (sub : SubscriberData) (ts : TsVbuuid) (kv : String)
    (rs : List VbResponse) (opq : Nat) (feeder : Feeder) (tr : List ExtCall)
    (hsub : processSubscribers env s sub = (none, s₁))
    (hbf : bucketFeed env s₁ false true ts = (Except.ok feeder, tr))
    (hvb : ts.GetVbnos = rs.map (fun r => r.vbno))
    (hnd : (rs.map (fun r => r.vbno)).Nodup)
    (hbk : s₁.backch = responsesToBackMsgs ts.GetBucket kv opq rs) :
    (start env s ⟨[ts], sub⟩ opq).1 = none
    ∧ (start env s ⟨[ts], sub⟩ opq).2.1.reqTss ts.GetBucket = some ts
    ∧ (start env s ⟨[ts], sub⟩ opq).2.1.rollTss ts.GetBucket
        = some ⟨ts.GetBucket, ts.GetBucket, rollbackEntries rs⟩ := by
  have hw := waitStreamRequests_exact opq ts.GetBucket ts.GetBucket kv rs [] hnd
  rw [List.append_nil] at hw
  unfold start
  rw [show (⟨[ts], sub⟩ : MutationTopicRequest).sub = sub from rfl, hsub]
  simp only [startLoop]
  rw [hbf]
  simp only
  rw [hvb, hbk, hw]
  simp [mapSet]

/-- Witness for C3 at the spec's literal scenario: vbuckets `[0, 1, 2]`
requested, success for 0 and 1, `ROLLBACK` at `(vb 2, seq 50)`. -/
theorem start_rollback_not_error_witness :
    (start okEnv rollbackStartState ⟨[ts1], emptySub⟩ 17).1 = none
    ∧ (start okEnv rollbackStartState ⟨[ts1], emptySub⟩ 17).2.1.reqTss "b1"
        = some ts1
    ∧ (start okEnv rollbackStartState
        ⟨[ts1], emptySub⟩ 17).2.1.rollTss "b1"
        = some ⟨"b1", "b1", [⟨2, 50, 170, 0, 0⟩]⟩ :=
  start_rollback_not_error okEnv rollbackStartState rollbackStartState
    emptySub ts1 "kv1" rollbackScenario 17 ⟨1⟩
    [ExtCall.bucketDetailsCall "p0" "b1"] rfl rfl rfl (by decide) rfl

/-- Helper: a non-matching message leaves the awaited vbucket pending in
the stream-request callback state. -/
theorem wsrCallb_no_match (opq : Nat) (b : String) (v : Nat) (st : WsrState)
    (m : BackMsg) (hm : isMatchingReq b opq v m = false)
    (hv : v ∈ st.vbnos) :
    v ∈ ((wsrCallb opq b st (m.headD (BVal.slice []))).1).vbnos := by
  unfold isMatchingReq at hm
  cases hh : m.headD (BVal.slice []) with
  | ctrlReq val =>
    rw [hh] at hm
    simp only [wsrCallb]
    by_cases hmt : (val.bucket == b && val.opq == opq) = true
    · have hvne : (val.vbno == v) = false := by
        cases hx : (val.vbno == v) with
        | false => rfl
        | true =>
          exfalso
          dsimp only at hm
          rw [hmt, hx] at hm
          simp at hm
      simp only [hmt, if_true]
      simp only [removeUint16, List.mem_filter]
      refine ⟨hv, ?_⟩
      simp only [Bool.not_eq_true', beq_eq_false_iff_ne]
      intro hc
      rw [hc] at hvne
      simp at hvne
    · simp [hmt, hv]
  | ctrlEnd val =>
    simp [wsrCallb, hh, hv]
  | slice xs =>
    simp [wsrCallb, hh, hv]

/-- Helper: the stream-request callback only answers "done" with an
empty pending set. -/
theorem wsrCallb_done_empty (opq : Nat) (b : String) (st : WsrState)
    (w : BVal) (hd : (wsrCallb opq b st w).2 = CbRes.done) :
    ((wsrCallb opq b st w).1).vbnos = [] := by
  cases w with
  | ctrlReq val =>
    simp only [wsrCallb] at hd ⊢
    by_cases hmt : (val.bucket == b && val.opq == opq) = true
    · simp only [hmt, if_true] at hd ⊢
      by_cases he : (removeUint16 val.vbno st.vbnos).isEmpty = true
      · exact List.isEmpty_iff.mp he
      · simp [he] at hd
    · simp [hmt] at hd
  | ctrlEnd val => simp [wsrCallb] at hd
  | slice xs => simp [wsrCallb] at hd

/-- Helper: when no message of the queue matches the awaited vbucket,
the drain loop never reaches "done". -/
theorem drainLoop_wsr_no_match (opq : Nat) (b : String) (v : Nat) :
    ∀ (q sk : List BackMsg) (st : WsrState),
      v ∈ st.vbnos → (∀ m ∈ q, isMatchingReq b opq v m = false) →
      (drainLoop (wsrCallb opq b) st q sk).2.1 = false := by
  intro q
  induction q with
  | nil => intro sk st _ _; rfl
  | cons m rest ih =>
    intro sk st hv hnm
    have hv' := wsrCallb_no_match opq b v st m (hnm m (by simp)) hv
    simp only [drainLoop]
    split
    case _ st' heq =>
      refine ih _ st' ?_ (fun x hx => hnm x (by simp [hx]))
      rw [heq] at hv'
      exact hv'
    case _ st' heq =>
      exfalso
      have hde := wsrCallb_done_empty opq b st (m.headD (BVal.slice []))
        (by rw [heq])
      rw [heq] at hde hv'
      rw [hde] at hv'
      exact absurd hv' (List.not_mem_nil v)
    case _ st' heq =>
      refine ih _ st' ?_ (fun x hx => hnm x (by simp [hx]))
      rw [heq] at hv'
      exact hv'

/-- Helper: when some awaited vbucket never receives matching feedback,
`waitStreamRequests` returns `responseTimeout`. -/
theorem waitStreamRequests_timeout (opq : Nat) (pooln bucketn : String)
    (v : Nat) (vbnos : List Nat) (backch : List BackMsg)
    (hv : v ∈ vbnos)
    (hnm : ∀ m ∈ backch, isMatchingReq bucketn opq v m = false) :
    (waitStreamRequests opq pooln bucketn vbnos backch).1.2
      = some FeedError.responseTimeout := by
  have hne : ¬(vbnos.isEmpty = true) := by
    intro hc
    rw [List.isEmpty_iff.mp hc] at hv
    exact absurd hv (List.not_mem_nil v)
  have hd := drainLoop_wsr_no_match opq bucketn v backch []
    ⟨newTsVbuuid pooln bucketn, vbnos⟩ hv hnm
  unfold waitStreamRequests waitOnFeedback
  rw [if_neg hne]
  show (if (drainLoop (wsrCallb opq bucketn)
      ⟨newTsVbuuid pooln bucketn, vbnos⟩ backch []).2.1 = true then none
    else some FeedError.responseTimeout) = some FeedError.responseTimeout
  rw [hd]
  simp

/-- C4: if during `start` some requested vbucket produces no matching
feedback before the timeout, the operation returns `responseTimeout`
and the per-bucket maps `reqTss`, `rollTss`, `feeders` and `kvdata` are
not updated for the bucket whose wait timed out. -/
theorem start_timeout_no_partial_state (env : Env) (s s₁ : FeedState)
    (sub : SubscriberData) (ts : TsVbuuid) (opq v : Nat) (feeder : Feeder)
    (tr : List ExtCall)
    (hsub : processSubscribers env s sub = (none, s₁))
    (hbf : bucketFeed env s₁ false true ts = (Except.ok feeder, tr))
    (hv : v ∈ ts.GetVbnos)
    (hnm : ∀ m ∈ s₁.backch, isMatchingReq ts.GetBucket opq v m = false) :
    (start env s ⟨[ts], sub⟩ opq).1 = some FeedError.responseTimeout
    ∧ (start env s ⟨[ts], sub⟩ opq).2.1.reqTss ts.GetBucket
        = s.reqTss ts.GetBucket
    ∧ (start env s ⟨[ts], sub⟩ opq).2.1.rollTss ts.GetBucket
        = s.rollTss ts.GetBucket
    ∧ (start env s ⟨[ts], sub⟩ opq).2.1.feeders ts.GetBucket
        = s.feeders ts.GetBucket
    ∧ (start env s ⟨[ts], sub⟩ opq).2.1.kvdata ts.GetBucket
        = s.kvdata ts.GetBucket := by
  have hw := waitStreamRequests_timeout opq ts.GetBucket ts.GetBucket v
    ts.GetVbnos s₁.backch hv hnm
  have hfr := processSubscribers_frame env s sub
  rw [hsub] at hfr
  unfold start
  rw [show (⟨[ts], sub⟩ : MutationTopicRequest).sub = sub from rfl, hsub]
  simp only [startLoop]
  rw [hbf]
  simp only
  rcases hws : waitStreamRequests opq ts.GetBucket ts.GetBucket ts.GetVbnos
    s₁.backch with ⟨⟨rollTs, werr⟩, backch'⟩
  rw [hws] at hw
  simp only at hw
  dsimp only
  rw [hw]
  exact ⟨rfl, congrFun hfr.1 ts.GetBucket, congrFun hfr.2.1 ts.GetBucket,
    congrFun hfr.2.2.1 ts.GetBucket, congrFun hfr.2.2.2.1 ts.GetBucket⟩

/-- Witness for C4 at the spec's literal scenario: three vbuckets
requested, only vbuckets 0 and 1 answer. -/
theorem start_timeout_no_partial_state_witness :
    (start okEnv timeoutStartState ⟨[ts1], emptySub⟩ 17).1
        = some FeedError.responseTimeout
    ∧ (start okEnv timeoutStartState ⟨[ts1], emptySub⟩ 17).2.1.reqTss "b1"
        = timeoutStartState.reqTss "b1" :=
  ⟨(start_timeout_no_partial_state okEnv timeoutStartState timeoutStartState
      emptySub ts1 17 2 ⟨1⟩ [ExtCall.bucketDetailsCall "p0" "b1"]
      rfl rfl (by decide) (by decide)).1,
   (start_timeout_no_partial_state okEnv timeoutStartState timeoutStartState
      emptySub ts1 17 2 ⟨1⟩ [ExtCall.bucketDetailsCall "p0" "b1"]
      rfl rfl (by decide) (by decide)).2.1⟩

/-- Helper: the del-buckets loop never re-creates a bucket: a bucket
empty in all five maps stays empty. -/
theorem delBucketsLoop_none_preserved (env : Env) (opq : Nat) :
    ∀ (names : List String) (s : FeedState) (b : String),
      allFiveEmpty s b → allFiveEmpty (delBucketsLoop env opq s names).2.1 b := by
  intro names
  induction names with
  | nil => intro s b h; exact h
  | cons bn rest ih =>
    intro s b h
    simp only [delBucketsLoop]
    split
    · exact h
    · split
      · exact h
      · split
        · exact h
        · refine ih _ b ⟨?_, ?_, ?_, ?_, ?_⟩ <;>
            by_cases hb : b = bn <;>
            simp [mapDel, hb, h.1, h.2.1, h.2.2.1, h.2.2.2.1, h.2.2.2.2]

/-- Helper: a successful del-buckets loop erases every named bucket from
all five per-bucket maps. -/
theorem delBucketsLoop_success_deletes (env : Env) (opq : Nat) :
    ∀ (names : List String) (s : FeedState),
      (delBucketsLoop env opq s names).1 = none →
      ∀ b ∈ names, allFiveEmpty (delBucketsLoop env opq s names).2.1 b := by
  intro names
  induction names with
  | nil => intro s _ b hb; exact absurd hb (List.not_mem_nil b)
  | cons bn rest ih =>
    intro s hsucc b hb
    cases hk : s.kvdata bn with
    | none =>
      exfalso
      simp only [delBucketsLoop, hk] at hsucc
      exact Option.noConfusion hsucc
    | some kvs =>
      rcases hbf : bucketFeed env s true false
          ((s.reqTss bn).getD (newTsVbuuid "" "")) with ⟨bfr, tr⟩
      cases bfr with
      | error e =>
        exfalso
        simp only [delBucketsLoop, hk, hbf] at hsucc
        exact Option.noConfusion hsucc
      | ok feeder =>
        rcases hwe : waitStreamEnds opq bn
            ((s.reqTss bn).getD (newTsVbuuid "" "")).GetVbnos s.backch
          with ⟨werr, backch'⟩
        cases werr with
        | some e =>
          exfalso
          simp only [delBucketsLoop, hk, hbf, hwe] at hsucc
          exact Option.noConfusion hsucc
        | none =>
          simp only [delBucketsLoop, hk, hbf, hwe] at hsucc ⊢
          rcases List.mem_cons.mp hb with hbq | hbq
          · subst hbq
            exact delBucketsLoop_none_preserved env opq rest _ b
              ⟨by simp [mapDel], by simp [mapDel], by simp [mapDel],
               by simp [mapDel], by simp [mapDel]⟩
          · exact ih _ hsucc b hbq

/-- C5: a successful `start` that installs a set of buckets, followed by
a successful `delBuckets` naming every installed bucket, restores the
topic's five per-bucket maps (`reqTss`, `rollTss`, `feeders`, `kvdata`,
`engines`) to empty. -/
theorem start_delBuckets_roundtrip (env₁ env₂ : Env) (s : FeedState)
    (req : MutationTopicRequest) (names : List String) (opq₁ opq₂ : Nat)
    (h1 : (start env₁ s req opq₁).1 = none)
    (hcover : ∀ b, bucketInstalled (start env₁ s req opq₁).2.1 b → b ∈ names)
    (h2 : (delBuckets env₂ (start env₁ s req opq₁).2.1 ⟨names⟩ opq₂).1
        = none) :
    ∀ b, allFiveEmpty
      (delBuckets env₂ (start env₁ s req opq₁).2.1 ⟨names⟩ opq₂).2.1 b := by
  intro b
  by_cases hb : b ∈ names
  · exact delBucketsLoop_success_deletes env₂ opq₂ names _ h2 b hb
  · have hni : ¬ bucketInstalled (start env₁ s req opq₁).2.1 b :=
      fun hc => hb (hcover b hc)
    simp only [bucketInstalled, not_or] at hni
    have h5 : allFiveEmpty (start env₁ s req opq₁).2.1 b := by
      refine ⟨?_, ?_, ?_, ?_, ?_⟩ <;>
        [skip; skip; skip; skip; skip] <;>
        first
        | exact Option.not_isSome_iff_eq_none.mp (by simpa using hni.1)
        | exact Option.not_isSome_iff_eq_none.mp (by simpa using hni.2.1)
        | exact Option.not_isSome_iff_eq_none.mp (by simpa using hni.2.2.1)
        | exact Option.not_isSome_iff_eq_none.mp (by simpa using hni.2.2.2.1)
        | exact Option.not_isSome_iff_eq_none.mp (by simpa using hni.2.2.2.2)
    exact delBucketsLoop_none_preserved env₂ opq₂ names _ b h5

/-- Witness for C5: a `start` of bucket `b1` (with one engine) followed
by a `delBuckets ["b1"]` leaves all five per-bucket maps empty. -/
theorem start_delBuckets_roundtrip_witness :
    (start okEnv roundtripState ⟨[ts1], sub1⟩ 17).1 = none
    ∧ (delBuckets okEnv (start okEnv roundtripState ⟨[ts1], sub1⟩ 17).2.1
        ⟨["b1"]⟩ 18).1 = none
    ∧ allFiveEmpty (delBuckets okEnv
        (start okEnv roundtripState ⟨[ts1], sub1⟩ 17).2.1 ⟨["b1"]⟩ 18).2.1
        "b1" := by
  have hcover : ∀ b, bucketInstalled
      (start okEnv roundtripState ⟨[ts1], sub1⟩ 17).2.1 b → b ∈ ["b1"] := by
    intro b h
    by_cases hb : b = "b1"
    · simp [hb]
    · exfalso
      have e1 : (start okEnv roundtripState ⟨[ts1], sub1⟩ 17).2.1.reqTss b
          = (if b = "b1" then some ts1 else none) := rfl
      have e2 : (start okEnv roundtripState ⟨[ts1], sub1⟩ 17).2.1.rollTss b
          = (if b = "b1" then some ⟨"b1", "b1", []⟩ else none) := rfl
      have e3 : (start okEnv roundtripState ⟨[ts1], sub1⟩ 17).2.1.feeders b
          = (if b = "b1" then some ⟨1⟩ else none) := rfl
      have e4 : (start okEnv roundtripState ⟨[ts1], sub1⟩ 17).2.1.kvdata b
          = (if b = "b1" then some ["kv1"] else none) := rfl
      have e5 : (start okEnv roundtripState ⟨[ts1], sub1⟩ 17).2.1.engines b
          = (if b = "b1" then some [(7, ⟨7, ⟨"b1"⟩, ⟨[]⟩⟩)] else none) := rfl
      simp only [bucketInstalled] at h
      rcases h with h | h | h | h | h
      · rw [e1, if_neg hb] at h; simp at h
      · rw [e2, if_neg hb] at h; simp at h
      · rw [e3, if_neg hb] at h; simp at h
      · rw [e4, if_neg hb] at h; simp at h
      · rw [e5, if_neg hb] at h; simp at h
  exact ⟨rfl, rfl,
    start_delBuckets_roundtrip okEnv okEnv roundtripState ⟨[ts1], sub1⟩
      ["b1"] 17 18 rfl hcover rfl "b1"⟩

end Indexing
